import Mathlib

/-!
# AirScribeAI: gesture classifier and stroke state machine of `script.js`

A shallow embedding of the per-frame logic of `src/script.js`:

* `recognizeGesture` (lines 81-136): the classifier on one landmark array;
* `onResults` (lines 158-252): the frame handler, as a function from the
  program state and one frame to the new state and the list of calls made
  on the writing canvas, the gallery and the download action;
* `saveSnapshot` (lines 138-156): the gallery update, on the list of the
  gallery's child elements.

Coordinates and clock readings are JavaScript numbers; they are modelled as
rationals, on which `<`, `>` and the arithmetic of the handler are exact.
Where the rounding of those numbers decides a property, as for the limit of
the smoothing filter, lines 185-186 are modelled a second time in binary64
arithmetic (`emaD`, `smoothD`).
A JavaScript array is a `List`; reading a property of a missing element
throws a `TypeError`, which is modelled as `none` in the `Option` monad.
-/

set_option linter.unusedVariables false

namespace AirScribe

/-! ## Data model -/

/-- One hand landmark: the two coordinates the script reads. -/
structure Landmark where
  x : ℚ
  y : ℚ
  deriving DecidableEq, Repr

/-- The labels `recognizeGesture` returns (strings in the source). -/
inductive Gesture where
  | None
  | Pointing
  | Fist
  | OpenPalm
  | Unknown
  deriving DecidableEq, Repr

/-- The string each label stands for in the source. -/
def Gesture.label : Gesture → String
  | .None => "None"
  | .Pointing => "Pointing"
  | .Fist => "Fist"
  | .OpenPalm => "Open Palm"
  | .Unknown => "Unknown"

/-! ## `recognizeGesture` (lines 81-136) -/

/-- Line 99: `const fingerTips = [8, 12, 16, 20]`. -/
def fingerTips : List Nat := [8, 12, 16, 20]

/-- Line 100: `const fingerJoints = [6, 10, 14, 18]`. -/
def fingerJoints : List Nat := [6, 10, 14, 18]

/-- Line 110: `i === 0 ? 5 : (i === 1 ? 9 : (i === 2 ? 13 : 17))`. -/
def mcpJoint (i : Nat) : Nat :=
  if i = 0 then 5 else (if i = 1 then 9 else (if i = 2 then 13 else 17))

/-- The two variables the loop of lines 104-114 updates. -/
structure LoopVars where
  extendedCount : Nat
  fistCandidate : Bool
  deriving DecidableEq, Repr

/-- One iteration of the loop body, lines 105-113, at index `i`. -/
def loopBody (landmarks : List Landmark) (v : LoopVars) (i : Nat) : Option LoopVars := do
  let tipIdx ← fingerTips[i]?
  let jointIdx ← fingerJoints[i]?
  let tip ← landmarks[tipIdx]?
  let joint ← landmarks[jointIdx]?
  let extendedCount := if tip.y < joint.y then v.extendedCount + 1 else v.extendedCount
  let mcp ← landmarks[mcpJoint i]?
  let fistCandidate := if tip.y < mcp.y then false else v.fistCandidate
  pure { extendedCount := extendedCount, fistCandidate := fistCandidate }

/-- The loop of lines 101-114: `for (let i = 0; i < fingerTips.length; i++)`
starting from `extendedCount = 0`, `fistCandidate = true`. -/
def fingerLoop (landmarks : List Landmark) : Option LoopVars :=
  (List.range fingerTips.length).foldlM (loopBody landmarks)
    { extendedCount := 0, fistCandidate := true }

/-- The squared Euclidean distance of two landmarks.  Lines 86-89 and 93-96
take its square root (`Math.sqrt`), a floating-point value no branch reads. -/
def sqDist (a b : Landmark) : ℚ :=
  (a.x - b.x) ^ 2 + (a.y - b.y) ^ 2

/-- Lines 84-96: the reads of landmarks 4, 8, 0 and 5 and the two unused
values `dist` and `handScale` (kept squared). -/
def unusedGeometry (landmarks : List Landmark) : Option (ℚ × ℚ) := do
  let thumbTip ← landmarks[4]?
  let indexTip ← landmarks[8]?
  let dist := sqDist thumbTip indexTip
  let wrist ← landmarks[0]?
  let indexMcp ← landmarks[5]?
  let handScale := sqDist wrist indexMcp
  pure (dist, handScale)

/-- Lines 118-123: the condition
`isIndexExtended && isMiddleFolded && isRingFolded && isPinkyFolded`. -/
def pointingCheck (landmarks : List Landmark) : Option Bool := do
  let l8 ← landmarks[8]?
  let l6 ← landmarks[6]?
  let isIndexExtended : Bool := decide (l8.y < l6.y)
  let l12 ← landmarks[12]?
  let l10 ← landmarks[10]?
  let isMiddleFolded : Bool := decide (l12.y > l10.y)
  let l16 ← landmarks[16]?
  let l14 ← landmarks[14]?
  let isRingFolded : Bool := decide (l16.y > l14.y)
  let l20 ← landmarks[20]?
  let l18 ← landmarks[18]?
  let isPinkyFolded : Bool := decide (l20.y > l18.y)
  pure (isIndexExtended && isMiddleFolded && isRingFolded && isPinkyFolded)

/-- The classifier, lines 81-136.  The argument is `none` for a falsy
`landmarks` (line 82). -/
def recognizeGesture (landmarks? : Option (List Landmark)) : Option Gesture :=
  match landmarks? with
  | none => some Gesture.None
  | some landmarks => do
    let geometry ← unusedGeometry landmarks
    let v ← fingerLoop landmarks
    let isPointing ← pointingCheck landmarks
    if isPointing then
      pure Gesture.Pointing
    else if v.fistCandidate && v.extendedCount == 0 then
      pure Gesture.Fist
    else if v.extendedCount == 4 then
      pure Gesture.OpenPalm
    else
      pure Gesture.Unknown

/-! ## Program state and `onResults` (lines 17-34 and 158-252) -/

/-- Line 26: `const DRAW_BUFFER_MAX = 5`. -/
def DRAW_BUFFER_MAX : Int := 5

/-- Line 34: `const smoothingAlpha = 0.45`. -/
def smoothingAlpha : ℚ := 45 / 100

/-- The state variables of lines 18-28 that `onResults` reads and writes. -/
structure State where
  lastX : ℚ
  lastY : ℚ
  smoothedX : ℚ
  smoothedY : ℚ
  isDrawing : Bool
  drawStartTime : ℚ
  drawBuffer : Int
  lastFistState : Bool
  deriving DecidableEq, Repr

/-- The values of lines 18-28 when the script is loaded. -/
def initialState : State :=
  { lastX := 0, lastY := 0, smoothedX := 0, smoothedY := 0, isDrawing := false,
    drawStartTime := 0, drawBuffer := 0, lastFistState := false }

/-- The calls `onResults` makes on its collaborators: one stroked segment
on the writing canvas (`moveTo(lastX, lastY); lineTo(smoothedX, smoothedY);
stroke()`), `saveSnapshot()` and `triggerScreenshot()`. -/
inductive Call where
  | segment (fromX fromY toX toY : ℚ)
  | saveSnapshot
  | triggerScreenshot
  deriving DecidableEq, Repr

/-- The argument of `onResults`: `results.multiHandLandmarks` is absent
(`none`) or an array of landmark arrays. -/
structure Results where
  multiHandLandmarks : Option (List (List Landmark))
  deriving DecidableEq, Repr

/-- One invocation of `onResults`: its argument and what it reads from the
environment, namely the clock (`performance.now()` where the stroke logic
reads it, line 201 or 222) and the size of the writing canvas. -/
structure Frame where
  results : Results
  now : ℚ
  width : ℚ
  height : ℚ
  deriving DecidableEq, Repr

/-- The exponential moving average of lines 185-186, on one axis:
`(c * smoothingAlpha) + (smoothed * (1 - smoothingAlpha))`. -/
def ema (c smoothed : ℚ) : ℚ :=
  (c * smoothingAlpha) + (smoothed * (1 - smoothingAlpha))

/-- Lines 185-186: both axes of the smoothed point are blended. -/
def smooth (s : State) (cx cy : ℚ) : State :=
  { s with smoothedX := ema cx s.smoothedX, smoothedY := ema cy s.smoothedY }

/-- Lines 189-207: the branch `gesture === "Pointing"`. -/
def pointingBranch (s : State) (cx cy now : ℚ) : State × List Call :=
  let s := { s with drawBuffer := DRAW_BUFFER_MAX }
  if s.isDrawing then
    ({ s with lastX := s.smoothedX, lastY := s.smoothedY },
      [Call.segment s.lastX s.lastY s.smoothedX s.smoothedY])
  else
    let s := { s with drawStartTime := now, smoothedX := cx, smoothedY := cy, isDrawing := true }
    ({ s with lastX := s.smoothedX, lastY := s.smoothedY }, [])

/-- Lines 208-230: the branch of every other gesture. -/
def otherBranch (s : State) (cx cy now : ℚ) : State × List Call :=
  if s.isDrawing && decide (s.drawBuffer > 0) then
    let s := { s with drawBuffer := s.drawBuffer - 1 }
    ({ s with lastX := s.smoothedX, lastY := s.smoothedY },
      [Call.segment s.lastX s.lastY s.smoothedX s.smoothedY])
  else if s.isDrawing then
    let calls := if now - s.drawStartTime > 200 then [Call.saveSnapshot] else []
    ({ s with isDrawing := false }, calls)
  else
    ({ s with smoothedX := cx, smoothedY := cy }, [])

/-- Lines 233-240: the fist action. -/
def fistAction (s : State) (gesture : Gesture) : State × List Call :=
  if gesture = Gesture.Fist then
    let calls := if !s.lastFistState then [Call.triggerScreenshot] else []
    ({ s with lastFistState := true }, calls)
  else
    ({ s with lastFistState := false }, [])

/-- Lines 180-240: what a frame with a hand does once the gesture and the
index tip are known. -/
def handBranch (s : State) (gesture : Gesture) (indexTip : Landmark) (f : Frame) :
    State × List Call :=
  let cx := (1 - indexTip.x) * f.width
  let cy := indexTip.y * f.height
  let s1 := smooth s cx cy
  let r1 := if gesture = Gesture.Pointing then pointingBranch s1 cx cy f.now
    else otherBranch s1 cx cy f.now
  let r2 := fistAction r1.1 gesture
  (r2.1, r1.2 ++ r2.2)

/-- Lines 242-248: the branch of a frame without a hand. -/
def noHandBranch (s : State) : State × List Call :=
  let calls := if s.isDrawing then [Call.saveSnapshot] else []
  ({ s with isDrawing := false }, calls)

/-- The frame handler, lines 158-252: the new state and the calls made, or
`none` when a landmark read throws.  The frame-rate display, the status
texts and the skeleton overlay write no state variable read here. -/
def onResults (s : State) (f : Frame) : Option (State × List Call) :=
  match f.results.multiHandLandmarks with
  | some (landmarks :: _) => do
    let gesture ← recognizeGesture (some landmarks)
    let indexTip ← landmarks[8]?
    pure (handBranch s gesture indexTip f)
  | _ => pure (noHandBranch s)

/-- The handler run over a sequence of frames: the final state and, frame by
frame, the calls made. -/
def run (s : State) : List Frame → Option (State × List (List Call))
  | [] => some (s, [])
  | f :: fs => do
    let r ← onResults s f
    let rs ← run r.1 fs
    pure (rs.1, r.2 :: rs.2)

/-- The gesture of a frame that carries a hand of 21 landmarks. -/
def Frame.handGesture (f : Frame) : Option Gesture :=
  match f.results.multiHandLandmarks with
  | some (landmarks :: _) =>
    if landmarks.length = 21 then recognizeGesture (some landmarks) else none
  | _ => none

/-- The frame carries a hand of 21 landmarks whose gesture is not "Pointing". -/
def Frame.nonPointingHand (f : Frame) : Prop :=
  ∃ g, f.handGesture = some g ∧ g ≠ Gesture.Pointing

instance (f : Frame) : Decidable f.nonPointingHand :=
  match h : f.handGesture with
  | some g =>
    if hg : g = Gesture.Pointing then
      isFalse (by rintro ⟨g', h1, h2⟩; rw [h] at h1; cases h1; exact h2 hg)
    else isTrue ⟨g, h, hg⟩
  | none => isFalse (by rintro ⟨g', h1, _⟩; rw [h] at h1; cases h1)

/-- The frame carries no hand: the test of line 167 fails. -/
def Frame.noHand (f : Frame) : Prop :=
  f.results.multiHandLandmarks = none ∨ f.results.multiHandLandmarks = some []

instance (f : Frame) : Decidable f.noHand := by
  unfold Frame.noHand; infer_instance

/-- How many calls of a trace are stroked segments. -/
def segmentCount (calls : List Call) : Nat :=
  (calls.filter (fun c => match c with | Call.segment _ _ _ _ => true | _ => false)).length

/-! ## The reference decision of the specification (section 4.1) -/

/-- The "extended" test of the specification: tip y below (smaller than) the
PIP joint y. -/
def isExtended (tip pip : Landmark) : Prop := tip.y < pip.y

instance (tip pip : Landmark) : Decidable (isExtended tip pip) := by
  unfold isExtended; infer_instance

/-- How many of the four non-thumb fingers pass the "extended" test. -/
def extendedFingers (lm : List Landmark) (h : lm.length = 21) : Nat :=
  (if isExtended lm[8] lm[6] then 1 else 0) + (if isExtended lm[12] lm[10] then 1 else 0)
    + (if isExtended lm[16] lm[14] then 1 else 0) + (if isExtended lm[20] lm[18] then 1 else 0)

/-- Branch 1 of the specification: index tip strictly above its PIP joint and
the middle, ring and pinky tips strictly below theirs. -/
def PointingCond (lm : List Landmark) (h : lm.length = 21) : Prop :=
  lm[8].y < lm[6].y ∧ lm[12].y > lm[10].y ∧ lm[16].y > lm[14].y ∧ lm[20].y > lm[18].y

/-- Branch 2 of the specification: every tip y at least its MCP joint y, and
no finger extended. -/
def FistCond (lm : List Landmark) (h : lm.length = 21) : Prop :=
  (lm[8].y ≥ lm[5].y ∧ lm[12].y ≥ lm[9].y ∧ lm[16].y ≥ lm[13].y ∧ lm[20].y ≥ lm[17].y)
    ∧ extendedFingers lm h = 0

/-- Branch 3 of the specification: exactly four fingers extended. -/
def OpenPalmCond (lm : List Landmark) (h : lm.length = 21) : Prop :=
  extendedFingers lm h = 4

instance (lm : List Landmark) (h : lm.length = 21) : Decidable (PointingCond lm h) := by
  unfold PointingCond; infer_instance

instance (lm : List Landmark) (h : lm.length = 21) : Decidable (FistCond lm h) := by
  unfold FistCond; infer_instance

instance (lm : List Landmark) (h : lm.length = 21) : Decidable (OpenPalmCond lm h) := by
  unfold OpenPalmCond; infer_instance

/-- The four-branch decision of the specification, first match wins. -/
def classifySpec (lm : List Landmark) (h : lm.length = 21) : Gesture :=
  if PointingCond lm h then Gesture.Pointing
  else if FistCond lm h then Gesture.Fist
  else if OpenPalmCond lm h then Gesture.OpenPalm
  else Gesture.Unknown

/-- A landmark at x = 1/2 with the given y, for building test frames. -/
def lmY (y : ℚ) : Landmark := { x := 1 / 2, y := y }

/-- A 21-landmark frame given by the y of the four tips, with every PIP and
MCP joint, the wrist and the thumb at y = 1/2. -/
def pose (y8 y12 y16 y20 : ℚ) : List Landmark :=
  [lmY (1/2), lmY (1/2), lmY (1/2), lmY (1/2), lmY (1/2), lmY (1/2), lmY (1/2), lmY (1/2),
   lmY y8, lmY (1/2), lmY (1/2), lmY (1/2), lmY y12, lmY (1/2), lmY (1/2), lmY (1/2),
   lmY y16, lmY (1/2), lmY (1/2), lmY (1/2), lmY y20]

/-- A frame with one hand, on a 640 by 480 canvas, read at clock `now`. -/
def handFrame (lm : List Landmark) (now : ℚ) : Frame :=
  { results := { multiHandLandmarks := some [lm] }, now := now, width := 640, height := 480 }

/-- A frame without a hand, on a 640 by 480 canvas, read at clock `now`. -/
def noHandFrame (now : ℚ) : Frame :=
  { results := { multiHandLandmarks := none }, now := now, width := 640, height := 480 }

/-- A hand with only the index finger raised. -/
def pointingPose : List Landmark := pose (1/4) (3/4) (3/4) (3/4)

/-- A hand with index and middle fingers raised: no branch matches. -/
def unknownPose : List Landmark := pose (1/4) (1/4) (3/4) (3/4)

/-- A hand with the four tips below every joint. -/
def fistPose : List Landmark := pose (3/4) (3/4) (3/4) (3/4)

/-- The frames of one unknown-pose hand at each of the given clock readings. -/
def unknownFrames (ts : List ℚ) : List Frame := ts.map (handFrame unknownPose)

/-- The frames of the scenario of section 8: three pointing-pose hands at
t = 0, 33, 66 ms, two unknown-pose hands at t = 99, 132 ms, no hand at 165 ms. -/
def scenario : List Frame :=
  [handFrame pointingPose 0, handFrame pointingPose 33, handFrame pointingPose 66,
   handFrame unknownPose 99, handFrame unknownPose 132, noHandFrame 165]

/-- The index tip the handler reads (line 180), when the frame has a hand. -/
def Frame.indexTip (f : Frame) : Option Landmark :=
  match f.results.multiHandLandmarks with
  | some (landmarks :: _) => landmarks[8]?
  | _ => none

/-- How many calls of a trace are `saveSnapshot()`. -/
def snapshotCount (calls : List Call) : Nat := calls.count Call.saveSnapshot

/-- How many calls of a trace are `triggerScreenshot()`. -/
def screenshotCount (calls : List Call) : Nat := calls.count Call.triggerScreenshot

/-! ## The smoothing filter in double arithmetic (lines 185-186)

`ema` above blends in exact rationals.  JavaScript evaluates the same
expression on Numbers, the doubles of IEEE 754 binary64; the definitions below
model that arithmetic on rationals: the exact result of each operation is
rounded to the nearest double, ties to even. -/

/-- The spacing of the doubles around `q`: 2^(e-52) for 2^e ≤ |q| < 2^(e+1)
in the normal range, 2^(-1074) below 2^(-1022). -/
def ulp (q : ℚ) : ℚ :=
  if |q| < 2 ^ (-1022 : ℤ) then 2 ^ (-1074 : ℤ) else 2 ^ (Int.log 2 |q| - 52)

/-- The integer nearest to `x`, the even one of the two when `x` is half-way. -/
def roundHalfEven (x : ℚ) : ℤ :=
  if x - ⌊x⌋ < 1 / 2 then ⌊x⌋
  else if 1 / 2 < x - ⌊x⌋ then ⌊x⌋ + 1
  else if ⌊x⌋ % 2 = 0 then ⌊x⌋ else ⌊x⌋ + 1

/-- The multiple of the spacing nearest to `q`, ties to the even multiple. -/
def roundNearest (q : ℚ) : ℚ := roundHalfEven (q / ulp q) * ulp q

/-- The Number a JavaScript operation returns when its exact result is `q`:
`q` rounded to the nearest double, ties to even; `none` stands for an
infinite result, which is what a rounded magnitude of 2^1024 or more gives. -/
def toDouble (q : ℚ) : Option ℚ :=
  if |roundNearest q| < 2 ^ 1024 then some (roundNearest q) else none

/-- The blend of lines 185-186 on one axis, as JavaScript evaluates it:
`(c * smoothingAlpha) + (smoothed * (1 - smoothingAlpha))`, where
`smoothingAlpha` is the double of the literal `0.45` and each of the four
operations rounds. -/
def emaD (c smoothed : ℚ) : Option ℚ := do
  let alpha ← toDouble smoothingAlpha
  let p1 ← toDouble (c * alpha)
  let w ← toDouble (1 - alpha)
  let p2 ← toDouble (smoothed * w)
  toDouble (p1 + p2)

/-- Lines 185-186 as JavaScript evaluates them: both axes of the smoothed
point are blended. -/
def smoothD (s : State) (cx cy : ℚ) : Option State := do
  let x ← emaD cx s.smoothedX
  let y ← emaD cy s.smoothedY
  pure { s with smoothedX := x, smoothedY := y }

/-- The update of lines 185-186 run `n` times with the same raw point. -/
def smoothRepeatD (cx cy : ℚ) : Nat → State → Option State
  | 0, s => some s
  | n + 1, s => (smoothD s cx cy).bind (smoothRepeatD cx cy n)

/-- The double of the literal `0.45`: 0x1.CCCCCCCCCCCCDp-2. -/
def alphaD : ℚ := 8106479329266893 / 2 ^ 54

/-- The double of `1 - 0.45`, the double nearest to 0.55. -/
def betaD : ℚ := 4953959590107546 / 2 ^ 53

/-- The double nearest to 0.3. -/
def threeTenthsD : ℚ := 5404319552844595 / 2 ^ 54

/-- The next double after `threeTenthsD`, printed 0.30000000000000004. -/
def threeTenthsNextD : ℚ := 5404319552844596 / 2 ^ 54

/-! ## `saveSnapshot` (lines 138-156) -/

/-- A child element of the gallery: the placeholder paragraph of class
`empty-msg`, or a snapshot item holding the data URL of its image. -/
inductive GalleryChild where
  | emptyMsg
  | snapshotItem (dataURL : String)
  deriving DecidableEq, Repr

/-- Lines 138-156 on the list of the gallery's child elements, first child
first; `dataURL` is what `writingCanvas.toDataURL()` returns.  The placeholder
found by `querySelector` is removed, the new item is inserted before the first
child (or appended to an empty gallery), and the last child is removed when
there are more than 10 children.  The gallery is taken to hold element
children only, as the markup the clear button writes (line 62) does. -/
def saveSnapshot (gallery : List GalleryChild) (dataURL : String) : List GalleryChild :=
  let gallery := gallery.erase GalleryChild.emptyMsg
  let item := GalleryChild.snapshotItem dataURL
  let gallery :=
    match gallery with
    | _ :: _ => item :: gallery
    | [] => gallery ++ [item]
  if gallery.length > 10 then gallery.dropLast else gallery

/-! ## Observers used to state the properties -/

/-- The three tests of lines 123, 127 and 131, each with the label its branch
returns, in the coded order. -/
def branchTests (landmarks : List Landmark) : Option (List (Bool × Gesture)) := do
  let v ← fingerLoop landmarks
  let isPointing ← pointingCheck landmarks
  pure [(isPointing, Gesture.Pointing),
        (v.fistCandidate && v.extendedCount == 0, Gesture.Fist),
        (v.extendedCount == 4, Gesture.OpenPalm)]

/-- The label of the first test of the list that holds, "Unknown" when none
does (line 135). -/
def firstMatch : List (Bool × Gesture) → Gesture
  | [] => Gesture.Unknown
  | t :: rest => if t.1 then t.2 else firstMatch rest

/-- The frame is one the handler is specified for: no hand, or a hand of 21
landmarks. -/
def Frame.wellFormed (f : Frame) : Prop :=
  f.noHand ∨ ∃ g, f.handGesture = some g

instance (f : Frame) : Decidable f.wellFormed :=
  decidable_of_iff (f.noHand ∨ f.handGesture.isSome = true)
    (by unfold Frame.wellFormed; rw [Option.isSome_iff_exists])

/-- The raw canvas point of the index tip, lines 180-182:
`((1 - indexTip.x) * width, indexTip.y * height)`. -/
def Frame.rawPoint (f : Frame) : Option (ℚ × ℚ) :=
  f.indexTip.map (fun tip => ((1 - tip.x) * f.width, tip.y * f.height))

/-- Follows the pen through the calls of one frame: a segment must start
where the pen is and moves the pen to its end point; the other calls leave
the pen alone.  `none` when a segment starts anywhere else, or when there is
no pen. -/
def followSegments (pen : Option (ℚ × ℚ)) : List Call → Option (Option (ℚ × ℚ))
  | [] => some pen
  | Call.segment x0 y0 x1 y1 :: rest =>
    if pen = some (x0, y0) then followSegments (some (x1, y1)) rest else none
  | Call.saveSnapshot :: rest => followSegments pen rest
  | Call.triggerScreenshot :: rest => followSegments pen rest

/-- Runs the handler over the frames while following the pen of the current
stroke session: there is no pen while no session is open, the pen is put at
the frame's raw point on the frame that opens a session, and every segment
must start at the pen.  `false` when a segment does not, or the handler throws. -/
def connectedFrom (pen : Option (ℚ × ℚ)) (s : State) : List Frame → Bool
  | [] => true
  | f :: fs =>
    match onResults s f with
    | none => false
    | some r =>
      let pen0 := if !s.isDrawing && r.1.isDrawing then f.rawPoint else pen
      match followSegments pen0 r.2 with
      | none => false
      | some pen1 => connectedFrom (if r.1.isDrawing then pen1 else none) r.1 fs

/-- The pen of a state: the last point while a session is open. -/
def penOf (s : State) : Option (ℚ × ℚ) :=
  if s.isDrawing then some (s.lastX, s.lastY) else none

/-- A frame that agrees with `pointingPose` on the twelve y read by the
classifier and differs in every x, in the wrist and in the thumb. -/
def pointingPoseMoved : List Landmark :=
  [⟨0, 1⟩, ⟨0, 0⟩, ⟨0, 0⟩, ⟨0, 0⟩, ⟨1, 0⟩, ⟨0, 1/2⟩, ⟨0, 1/2⟩, ⟨0, 0⟩,
   ⟨0, 1/4⟩, ⟨0, 1/2⟩, ⟨0, 1/2⟩, ⟨0, 0⟩, ⟨0, 3/4⟩, ⟨0, 1/2⟩, ⟨0, 1/2⟩, ⟨0, 0⟩,
   ⟨0, 3/4⟩, ⟨0, 1/2⟩, ⟨0, 1/2⟩, ⟨0, 0⟩, ⟨0, 3/4⟩]

/-! ## Lemmas on the classifier -/

/-- A list of length 21 is its 21 elements. -/
theorem list_length_21 {α : Type} (l : List α) (h : l.length = 21) :
    ∃ a0 a1 a2 a3 a4 a5 a6 a7 a8 a9 a10 a11 a12 a13 a14 a15 a16 a17 a18 a19 a20,
      l = [a0, a1, a2, a3, a4, a5, a6, a7, a8, a9, a10, a11, a12, a13, a14, a15, a16,
           a17, a18, a19, a20] := by
  iterate 21 (rcases l with _ | ⟨_, l⟩ <;> first | (simp at h; done) | skip)
  rcases l with _ | ⟨_, l⟩
  · exact ⟨_, _, _, _, _, _, _, _, _, _, _, _, _, _, _, _, _, _, _, _, _, rfl⟩
  · simp at h

/-- One loop iteration on a full frame: the count grows by one when the tip
is above the PIP joint, the candidate flag falls when the tip is above the MCP. -/
theorem loopBody_some (lm : List Landmark) (v : LoopVars) (i t j : Nat)
    (tip joint mcp : Landmark)
    (ht : fingerTips[i]? = some t) (hj : fingerJoints[i]? = some j)
    (htip : lm[t]? = some tip) (hjoint : lm[j]? = some joint)
    (hmcp : lm[mcpJoint i]? = some mcp) :
    loopBody lm v i = some
      { extendedCount := v.extendedCount + (decide (tip.y < joint.y)).toNat,
        fistCandidate := v.fistCandidate && !decide (tip.y < mcp.y) } := by
  simp only [loopBody, ht, hj, htip, hjoint, hmcp, Option.bind_eq_bind, Option.some_bind,
    Option.pure_def, Option.some.injEq]
  by_cases h1 : tip.y < joint.y <;> by_cases h2 : tip.y < mcp.y <;> simp [h1, h2]

/-- The loop on a full frame, in closed form. -/
theorem fingerLoop_eq (a0 a1 a2 a3 a4 a5 a6 a7 a8 a9 a10 a11 a12 a13 a14 a15 a16
    a17 a18 a19 a20 : Landmark) :
    fingerLoop [a0, a1, a2, a3, a4, a5, a6, a7, a8, a9, a10, a11, a12, a13, a14, a15, a16,
           a17, a18, a19, a20] = some
      { extendedCount := 0 + (decide (a8.y < a6.y)).toNat + (decide (a12.y < a10.y)).toNat
          + (decide (a16.y < a14.y)).toNat + (decide (a20.y < a18.y)).toNat,
        fistCandidate := (((true && !decide (a8.y < a5.y)) && !decide (a12.y < a9.y))
          && !decide (a16.y < a13.y)) && !decide (a20.y < a17.y) } := by
  have hr : List.range fingerTips.length = [0, 1, 2, 3] := rfl
  rw [fingerLoop, hr]
  simp only [List.foldlM_cons, List.foldlM_nil]
  rw [loopBody_some _ _ 0 8 6 a8 a6 a5 rfl rfl rfl rfl rfl]
  simp only [Option.bind_eq_bind, Option.some_bind]
  rw [loopBody_some _ _ 1 12 10 a12 a10 a9 rfl rfl rfl rfl rfl]
  simp only [Option.bind_eq_bind, Option.some_bind]
  rw [loopBody_some _ _ 2 16 14 a16 a14 a13 rfl rfl rfl rfl rfl]
  simp only [Option.bind_eq_bind, Option.some_bind]
  rw [loopBody_some _ _ 3 20 18 a20 a18 a17 rfl rfl rfl rfl rfl]
  rfl

theorem toNat_decide (p : Prop) [Decidable p] : (decide p).toNat = if p then 1 else 0 := by
  by_cases h : p <;> simp [h]

/-- The classifier on a full frame agrees with the reference decision. -/
theorem recognizeGesture_eq_classifySpec (lm : List Landmark) (h : lm.length = 21) :
    recognizeGesture (some lm) = some (classifySpec lm h) := by
  obtain ⟨a0, a1, a2, a3, a4, a5, a6, a7, a8, a9, a10, a11, a12, a13, a14, a15, a16,
    a17, a18, a19, a20, rfl⟩ := list_length_21 lm h
  simp only [recognizeGesture, fingerLoop_eq, unusedGeometry, pointingCheck, classifySpec,
    PointingCond, FistCond, OpenPalmCond, extendedFingers, isExtended, toNat_decide]
  simp
  simp only [and_assoc]
  split_ifs <;> rfl

/-- The classifier never yields the label of an absent landmark array when
the array is present. -/
theorem recognizeGesture_ne_None (lm : List Landmark) :
    recognizeGesture (some lm) ≠ some Gesture.None := by
  simp only [recognizeGesture]
  cases unusedGeometry lm <;> cases fingerLoop lm <;> cases pointingCheck lm <;>
    first
    | (simp; done)
    | (simp only [Option.bind_eq_bind, Option.some_bind, Option.pure_def]
       split_ifs <;> simp)

/-! ## Lemmas on the frame handler -/

/-- A frame with a 21-landmark hand never throws: the handler takes the hand
branch with the frame's gesture and index tip. -/
theorem onResults_hand (f : Frame) (g : Gesture) (hg : f.handGesture = some g) :
    ∃ tip, f.indexTip = some tip ∧ ∀ s, onResults s f = some (handBranch s g tip f) := by
  unfold Frame.handGesture at hg
  unfold Frame.indexTip onResults
  split at hg
  · rename_i lm rest heq
    split at hg
    · rename_i hlen
      obtain ⟨a0, a1, a2, a3, a4, a5, a6, a7, a8, a9, a10, a11, a12, a13, a14, a15, a16,
        a17, a18, a19, a20, rfl⟩ := list_length_21 lm hlen
      refine ⟨a8, ?_, fun s => ?_⟩
      · simp [heq]
      · simp [heq, hg]
    · simp at hg
  · simp at hg

/-- A frame without a hand takes the branch of lines 242-248. -/
theorem onResults_noHand (s : State) (f : Frame) (hf : f.noHand) :
    onResults s f = some (noHandBranch s) := by
  unfold onResults
  rcases hf with hf | hf <;> simp [hf]

theorem handGesture_pointingPose (now : ℚ) :
    (handFrame pointingPose now).handGesture = some Gesture.Pointing := by
  have h : pointingPose.length = 21 := rfl
  simp only [Frame.handGesture, handFrame, h, if_true, recognizeGesture_eq_classifySpec _ h]
  norm_num [classifySpec, PointingCond, pointingPose, pose, lmY]

theorem handGesture_unknownPose (now : ℚ) :
    (handFrame unknownPose now).handGesture = some Gesture.Unknown := by
  have h : unknownPose.length = 21 := rfl
  simp only [Frame.handGesture, handFrame, h, if_true, recognizeGesture_eq_classifySpec _ h]
  norm_num [classifySpec, PointingCond, FistCond, OpenPalmCond, extendedFingers, isExtended,
    unknownPose, pose, lmY]

theorem handGesture_fistPose (now : ℚ) :
    (handFrame fistPose now).handGesture = some Gesture.Fist := by
  have h : fistPose.length = 21 := rfl
  simp only [Frame.handGesture, handFrame, h, if_true, recognizeGesture_eq_classifySpec _ h]
  norm_num [classifySpec, PointingCond, FistCond, OpenPalmCond, extendedFingers, isExtended,
    fistPose, pose, lmY]

theorem run_cons (s : State) (f : Frame) (fs : List Frame) (r : State × List Call)
    (h : onResults s f = some r) :
    run s (f :: fs) = (run r.1 fs).map (fun rs => (rs.1, r.2 :: rs.2)) := by
  simp only [run, h, Option.bind_eq_bind, Option.some_bind]
  cases run r.1 fs <;> rfl

/-- The fist action writes `lastFistState` only. -/
theorem fistAction_fst (s : State) (g : Gesture) :
    (fistAction s g).1 = { s with lastFistState := decide (g = Gesture.Fist) } := by
  unfold fistAction
  split_ifs with h <;> simp [h]

/-- The hand branch, Pointing case, in closed form. -/
theorem handBranch_pointing (s : State) (tip : Landmark) (f : Frame) :
    handBranch s Gesture.Pointing tip f
      = (({ (pointingBranch (smooth s ((1 - tip.x) * f.width) (tip.y * f.height))
              ((1 - tip.x) * f.width) (tip.y * f.height) f.now).1 with
            lastFistState := false }),
          (pointingBranch (smooth s ((1 - tip.x) * f.width) (tip.y * f.height))
              ((1 - tip.x) * f.width) (tip.y * f.height) f.now).2) := by
  simp [handBranch, fistAction]

/-- The hand branch, every other case, in closed form. -/
theorem handBranch_other (s : State) (g : Gesture) (tip : Landmark) (f : Frame)
    (hg : g ≠ Gesture.Pointing) :
    handBranch s g tip f
      = (({ (otherBranch (smooth s ((1 - tip.x) * f.width) (tip.y * f.height))
              ((1 - tip.x) * f.width) (tip.y * f.height) f.now).1 with
            lastFistState := decide (g = Gesture.Fist) }),
          (otherBranch (smooth s ((1 - tip.x) * f.width) (tip.y * f.height))
              ((1 - tip.x) * f.width) (tip.y * f.height) f.now).2
            ++ (fistAction (otherBranch (smooth s ((1 - tip.x) * f.width) (tip.y * f.height))
              ((1 - tip.x) * f.width) (tip.y * f.height) f.now).1 g).2) := by
  simp only [handBranch, if_neg hg, fistAction_fst]

/-- After a Pointing frame the session is open and the buffer is full. -/
theorem handBranch_pointing_open (s : State) (tip : Landmark) (f : Frame) :
    (handBranch s Gesture.Pointing tip f).1.isDrawing = true ∧
      (handBranch s Gesture.Pointing tip f).1.drawBuffer = DRAW_BUFFER_MAX := by
  rw [handBranch_pointing]
  cases hd : s.isDrawing <;> simp [pointingBranch, smooth, hd]

/-- A non-Pointing frame in an open session with a positive buffer keeps the
session open and takes one from the buffer. -/
theorem handBranch_other_hold (s : State) (g : Gesture) (tip : Landmark) (f : Frame)
    (hg : g ≠ Gesture.Pointing) (hd : s.isDrawing = true) (hb : 0 < s.drawBuffer) :
    (handBranch s g tip f).1.isDrawing = true ∧
      (handBranch s g tip f).1.drawBuffer = s.drawBuffer - 1 := by
  rw [handBranch_other s g tip f hg]
  simp [otherBranch, smooth, hd, hb]

/-- A non-Pointing frame in an open session with an empty buffer ends it. -/
theorem handBranch_other_end (s : State) (g : Gesture) (tip : Landmark) (f : Frame)
    (hg : g ≠ Gesture.Pointing) (hd : s.isDrawing = true) (hb : s.drawBuffer ≤ 0) :
    (handBranch s g tip f).1.isDrawing = false := by
  have hb' : ¬ 0 < s.drawBuffer := not_lt.mpr hb
  rw [handBranch_other s g tip f hg]
  simp [otherBranch, smooth, hd, hb']

/-- With `n` left in the buffer, up to `n` non-Pointing frames keep the
session open. -/
theorem run_hold (fs : List Frame) :
    ∀ (n : Nat) (s : State), s.isDrawing = true → s.drawBuffer = n → fs.length ≤ n →
      (∀ f ∈ fs, f.nonPointingHand) →
      ∃ s1 cs, run s fs = some (s1, cs) ∧ s1.isDrawing = true ∧
        s1.drawBuffer = (n : Int) - fs.length := by
  induction fs with
  | nil => intro n s hd hb _ _; exact ⟨s, [], rfl, hd, by simp [hb]⟩
  | cons f fs ih =>
    intro n s hd hb hlen hall
    obtain ⟨g, hg, hne⟩ := hall f (List.mem_cons_self _ _)
    obtain ⟨tip, -, hstep⟩ := onResults_hand f g hg
    have hn : 0 < n := by simp at hlen; omega
    obtain ⟨h1, h2⟩ := handBranch_other_hold s g tip f hne hd (by omega)
    obtain ⟨s1, cs, hrun, hd1, hb1⟩ := ih (n - 1) (handBranch s g tip f).1 h1
      (by rw [h2, hb]; omega) (by simp at hlen; omega)
      (fun f' hf' => hall f' (List.mem_cons_of_mem _ hf'))
    refine ⟨s1, (handBranch s g tip f).2 :: cs, ?_, hd1, ?_⟩
    · rw [run_cons s f fs _ (hstep s), hrun]; rfl
    · rw [hb1]; simp; omega

/-- With `n` left in the buffer, the frame number `n + 1` of a run of
non-Pointing frames ends the session. -/
theorem run_exhaust (fs : List Frame) :
    ∀ (n : Nat) (s : State), s.isDrawing = true → s.drawBuffer = n → fs.length = n + 1 →
      (∀ f ∈ fs, f.nonPointingHand) →
      ∃ s1 cs, run s fs = some (s1, cs) ∧ s1.isDrawing = false := by
  induction fs with
  | nil => intro n s _ _ hlen; simp at hlen
  | cons f fs ih =>
    intro n s hd hb hlen hall
    obtain ⟨g, hg, hne⟩ := hall f (List.mem_cons_self _ _)
    obtain ⟨tip, -, hstep⟩ := onResults_hand f g hg
    rcases Nat.eq_zero_or_pos n with hn | hn
    · subst hn
      have hnil : fs = [] := by simpa using hlen
      subst hnil
      refine ⟨(handBranch s g tip f).1, [(handBranch s g tip f).2], ?_,
        handBranch_other_end s g tip f hne hd (by simp [hb])⟩
      rw [run_cons s f [] _ (hstep s)]; rfl
    · obtain ⟨h1, h2⟩ := handBranch_other_hold s g tip f hne hd (by omega)
      obtain ⟨s1, cs, hrun, hd1⟩ := ih (n - 1) (handBranch s g tip f).1 h1
        (by rw [h2, hb]; omega) (by simp at hlen; omega)
        (fun f' hf' => hall f' (List.mem_cons_of_mem _ hf'))
      refine ⟨s1, (handBranch s g tip f).2 :: cs, ?_, hd1⟩
      rw [run_cons s f fs _ (hstep s), hrun]; rfl

theorem unknownFrames_nonPointing (ts : List ℚ) :
    ∀ f ∈ unknownFrames ts, f.nonPointingHand := by
  intro f hf
  obtain ⟨t, -, rfl⟩ := List.mem_map.mp hf
  exact ⟨Gesture.Unknown, handGesture_unknownPose t, by decide⟩

/-- A non-Pointing frame in an open session with a positive buffer leaves the
session start time as it was. -/
theorem handBranch_other_hold_start (s : State) (g : Gesture) (tip : Landmark) (f : Frame)
    (hg : g ≠ Gesture.Pointing) (hd : s.isDrawing = true) (hb : 0 < s.drawBuffer) :
    (handBranch s g tip f).1.drawStartTime = s.drawStartTime := by
  rw [handBranch_other s g tip f hg]
  simp [otherBranch, smooth, hd, hb]

/-- The session start time is not written while the buffer holds the session. -/
theorem run_hold_start (fs : List Frame) :
    ∀ (n : Nat) (s : State), s.isDrawing = true → s.drawBuffer = n → fs.length ≤ n →
      (∀ f ∈ fs, f.nonPointingHand) →
      ∀ s1 cs, run s fs = some (s1, cs) → s1.drawStartTime = s.drawStartTime := by
  induction fs with
  | nil => intro n s _ _ _ _ s1 cs h; simp [run] at h; rw [h.1]
  | cons f fs ih =>
    intro n s hd hb hlen hall s1 cs hrun
    obtain ⟨g, hg, hne⟩ := hall f (List.mem_cons_self _ _)
    obtain ⟨tip, -, hstep⟩ := onResults_hand f g hg
    have hn : 0 < n := by simp at hlen; omega
    obtain ⟨h1, h2⟩ := handBranch_other_hold s g tip f hne hd (by omega)
    rw [run_cons s f fs _ (hstep s)] at hrun
    obtain ⟨⟨s2, cs2⟩, hrun2, heq⟩ := Option.map_eq_some'.mp hrun
    simp only [Prod.mk.injEq] at heq
    have := ih (n - 1) (handBranch s g tip f).1 h1 (by rw [h2, hb]; omega)
      (by simp at hlen; omega) (fun f' hf' => hall f' (List.mem_cons_of_mem _ hf')) s2 cs2 hrun2
    rw [← heq.1, this, handBranch_other_hold_start s g tip f hne hd (by omega)]

/-- The other-gesture branch while the buffer holds the session. -/
theorem otherBranch_hold (s : State) (cx cy now : ℚ) (hd : s.isDrawing = true)
    (hb : 0 < s.drawBuffer) :
    otherBranch s cx cy now
      = ({ s with drawBuffer := s.drawBuffer - 1, lastX := s.smoothedX, lastY := s.smoothedY },
          [Call.segment s.lastX s.lastY s.smoothedX s.smoothedY]) := by
  simp [otherBranch, hd, hb]

/-- The other-gesture branch when the buffer is empty: the session ends. -/
theorem otherBranch_end (s : State) (cx cy now : ℚ) (hd : s.isDrawing = true)
    (hb : s.drawBuffer ≤ 0) :
    otherBranch s cx cy now
      = ({ s with isDrawing := false },
          if now - s.drawStartTime > 200 then [Call.saveSnapshot] else []) := by
  have hb' : ¬ 0 < s.drawBuffer := not_lt.mpr hb
  simp [otherBranch, hd, hb']

/-- The other-gesture branch with no session open: the smoothed point is reseeded. -/
theorem otherBranch_idle (s : State) (cx cy now : ℚ) (hd : s.isDrawing = false) :
    otherBranch s cx cy now = ({ s with smoothedX := cx, smoothedY := cy }, []) := by
  simp [otherBranch, hd]

/-- The calls of the fist action: one `triggerScreenshot()` on a rising edge. -/
theorem fistAction_snd (s : State) (g : Gesture) :
    (fistAction s g).2
      = if g = Gesture.Fist ∧ s.lastFistState = false then [Call.triggerScreenshot] else [] := by
  unfold fistAction
  by_cases h : g = Gesture.Fist <;> cases hl : s.lastFistState <;> simp [h, hl]

/-- The frame that ends a session by an empty buffer calls `saveSnapshot`
once when more than 200 ms have passed since the session start, and not at
all otherwise. -/
theorem handBranch_other_end_snapshot (s : State) (g : Gesture) (tip : Landmark) (f : Frame)
    (hg : g ≠ Gesture.Pointing) (hd : s.isDrawing = true) (hb : s.drawBuffer ≤ 0) :
    snapshotCount (handBranch s g tip f).2
      = if f.now - s.drawStartTime > 200 then 1 else 0 := by
  rw [handBranch_other s g tip f hg, otherBranch_end _ _ _ _ (by simpa [smooth] using hd)
    (by simpa [smooth] using hb), fistAction_snd]
  simp only [snapshotCount, smooth]
  split_ifs <;> simp

/-- A Pointing frame that opens a session records the frame's clock as its start. -/
theorem handBranch_pointing_start (s : State) (tip : Landmark) (f : Frame)
    (hd : s.isDrawing = false) :
    (handBranch s Gesture.Pointing tip f).1.drawStartTime = f.now := by
  rw [handBranch_pointing]
  simp [pointingBranch, smooth, hd]

theorem run_cons_some (s s1 s2 : State) (f : Frame) (fs : List Frame) (c : List Call)
    (cs : List (List Call)) (h1 : onResults s f = some (s1, c))
    (h2 : run s1 fs = some (s2, cs)) : run s (f :: fs) = some (s2, c :: cs) := by
  rw [run_cons s f fs _ h1, h2]; rfl

/-- The other-gesture branch never calls `triggerScreenshot` and never
writes `lastFistState`. -/
theorem otherBranch_fist (s : State) (cx cy now : ℚ) :
    screenshotCount (otherBranch s cx cy now).2 = 0 ∧
      (otherBranch s cx cy now).1.lastFistState = s.lastFistState := by
  unfold otherBranch screenshotCount
  split_ifs <;> simp

/-- The fist latch after a hand frame, and the number of `triggerScreenshot`
calls of the frame: one exactly on a rising edge. -/
theorem handBranch_fist (s : State) (g : Gesture) (tip : Landmark) (f : Frame) :
    (handBranch s g tip f).1.lastFistState = decide (g = Gesture.Fist) ∧
      screenshotCount (handBranch s g tip f).2
        = if g = Gesture.Fist ∧ s.lastFistState = false then 1 else 0 := by
  by_cases hg : g = Gesture.Pointing
  · subst hg
    rw [handBranch_pointing]
    cases hd : s.isDrawing <;> simp [pointingBranch, smooth, screenshotCount, hd]
  · rw [handBranch_other s g tip f hg]
    obtain ⟨h1, h2⟩ := otherBranch_fist (smooth s ((1 - tip.x) * f.width) (tip.y * f.height))
      ((1 - tip.x) * f.width) (tip.y * f.height) f.now
    refine ⟨rfl, ?_⟩
    simp only [screenshotCount] at h1 ⊢
    rw [List.count_append, h1, fistAction_snd, h2]
    simp only [smooth]
    split_ifs <;> simp

theorem screenshotCount_flatten (cs : List (List Call)) (h : ∀ c ∈ cs, screenshotCount c = 0) :
    screenshotCount cs.flatten = 0 := by
  induction cs with
  | nil => rfl
  | cons c cs ih =>
    have h1 := h c (List.mem_cons_self _ _)
    have h2 := ih (fun c' hc' => h c' (List.mem_cons_of_mem _ hc'))
    simp only [screenshotCount, List.flatten_cons, List.count_append] at h1 h2 ⊢
    rw [h1, h2]

/-- One hand frame, seen from the fist latch: the handler returns, the latch
records whether the gesture is "Fist", and `triggerScreenshot` is called once
exactly on a rising edge. -/
theorem onResults_fist_step (s : State) (f : Frame) (g : Gesture)
    (hg : f.handGesture = some g) :
    ∃ s1 c, onResults s f = some (s1, c) ∧ s1.lastFistState = decide (g = Gesture.Fist) ∧
      screenshotCount c = if g = Gesture.Fist ∧ s.lastFistState = false then 1 else 0 := by
  obtain ⟨tip, -, hstep⟩ := onResults_hand f g hg
  obtain ⟨h1, h2⟩ := handBranch_fist s g tip f
  exact ⟨(handBranch s g tip f).1, (handBranch s g tip f).2, hstep s, h1, h2⟩

/-- While the fist is held, no frame calls `triggerScreenshot`. -/
theorem run_fist_held (fs : List Frame) :
    ∀ s : State, s.lastFistState = true → (∀ f ∈ fs, f.handGesture = some Gesture.Fist) →
      ∃ s1 cs, run s fs = some (s1, cs) ∧ cs.length = fs.length ∧
        ∀ c ∈ cs, screenshotCount c = 0 := by
  induction fs with
  | nil => intro s _ _; exact ⟨s, [], rfl, rfl, by simp⟩
  | cons f fs ih =>
    intro s hs hall
    obtain ⟨s1, c, hstep, h1, h2⟩ :=
      onResults_fist_step s f _ (hall f (List.mem_cons_self _ _))
    obtain ⟨s2, cs, hrun, hlen, hcs⟩ := ih s1 (by rw [h1]; rfl)
      (fun f1 hf1 => hall f1 (List.mem_cons_of_mem _ hf1))
    refine ⟨s2, c :: cs, run_cons_some _ _ _ _ _ _ _ hstep hrun, by simp [hlen], ?_⟩
    intro c1 hc1
    rcases List.mem_cons.mp hc1 with rfl | hc1
    · rw [h2]; simp [hs]
    · exact hcs c1 hc1

theorem segmentCount_append (a b : List Call) :
    segmentCount (a ++ b) = segmentCount a + segmentCount b := by
  simp [segmentCount]

/-- One Pointing hand frame: the handler returns, the session is open with a
full buffer afterwards, and a segment is drawn exactly when a session was
already open. -/
theorem onResults_pointing_step (s : State) (f : Frame)
    (hf : f.handGesture = some Gesture.Pointing) :
    ∃ s1 c, onResults s f = some (s1, c) ∧ s1.isDrawing = true ∧
      s1.drawBuffer = DRAW_BUFFER_MAX ∧
      segmentCount c = (if s.isDrawing then 1 else 0) ∧ snapshotCount c = 0 := by
  obtain ⟨tip, -, hstep⟩ := onResults_hand f _ hf
  obtain ⟨h1, h2⟩ := handBranch_pointing_open s tip f
  refine ⟨(handBranch s Gesture.Pointing tip f).1, (handBranch s Gesture.Pointing tip f).2,
    hstep s, h1, h2, ?_, ?_⟩
  · rw [handBranch_pointing]
    cases hd : s.isDrawing <;> simp [pointingBranch, smooth, segmentCount, hd]
  · rw [handBranch_pointing]
    cases hd : s.isDrawing <;> simp [pointingBranch, smooth, snapshotCount, hd]

/-- One non-Pointing hand frame while the buffer holds an open session: the
handler returns, the session stays open, the buffer loses one, and one
bridging segment is drawn. -/
theorem onResults_hold_step (s : State) (f : Frame) (hf : f.nonPointingHand)
    (hd : s.isDrawing = true) (hb : 0 < s.drawBuffer) :
    ∃ s1 c, onResults s f = some (s1, c) ∧ s1.isDrawing = true ∧
      s1.drawBuffer = s.drawBuffer - 1 ∧ segmentCount c = 1 ∧ snapshotCount c = 0 := by
  obtain ⟨g, hg, hne⟩ := hf
  obtain ⟨tip, -, hstep⟩ := onResults_hand f g hg
  obtain ⟨h1, h2⟩ := handBranch_other_hold s g tip f hne hd hb
  refine ⟨(handBranch s g tip f).1, (handBranch s g tip f).2, hstep s, h1, h2, ?_, ?_⟩
  · rw [handBranch_other s g tip f hne, otherBranch_hold _ _ _ _ (by simpa [smooth] using hd)
      (by simpa [smooth] using hb), fistAction_snd, segmentCount_append]
    simp only [segmentCount]
    split_ifs <;> simp
  · rw [handBranch_other s g tip f hne, otherBranch_hold _ _ _ _ (by simpa [smooth] using hd)
      (by simpa [smooth] using hb), fistAction_snd]
    simp only [snapshotCount]
    split_ifs <;> simp

/-- One frame without a hand: the handler returns, no session is open
afterwards, no segment is drawn, and `saveSnapshot` is called once exactly
when a session was open. -/
theorem onResults_noHand_step (s : State) (f : Frame) (hf : f.noHand) :
    ∃ s1 c, onResults s f = some (s1, c) ∧ s1.isDrawing = false ∧
      segmentCount c = 0 ∧ snapshotCount c = (if s.isDrawing then 1 else 0) := by
  refine ⟨(noHandBranch s).1, (noHandBranch s).2, onResults_noHand s f hf, rfl, ?_, ?_⟩
  · cases hd : s.isDrawing <;> simp [noHandBranch, segmentCount, hd]
  · cases hd : s.isDrawing <;> simp [noHandBranch, snapshotCount, hd]

/-- Three Pointing frames, two non-Pointing hand frames and a frame without a
hand, from the initial state: the calls frame by frame. -/
theorem run_three_two_one (p1 p2 p3 u1 u2 n : Frame)
    (hp1 : p1.handGesture = some Gesture.Pointing)
    (hp2 : p2.handGesture = some Gesture.Pointing)
    (hp3 : p3.handGesture = some Gesture.Pointing)
    (hu1 : u1.nonPointingHand) (hu2 : u2.nonPointingHand) (hn : n.noHand) :
    ∃ s c1 c2 c3 c4 c5 c6,
      run initialState [p1, p2, p3, u1, u2, n] = some (s, [c1, c2, c3, c4, c5, c6]) ∧
      s.isDrawing = false ∧
      (segmentCount c1 = 0 ∧ segmentCount c2 = 1 ∧ segmentCount c3 = 1) ∧
      (segmentCount c4 = 1 ∧ segmentCount c5 = 1) ∧ segmentCount c6 = 0 ∧
      (snapshotCount c1 = 0 ∧ snapshotCount c2 = 0 ∧ snapshotCount c3 = 0 ∧
        snapshotCount c4 = 0 ∧ snapshotCount c5 = 0) ∧ snapshotCount c6 = 1 := by
  obtain ⟨s1, c1, r1, d1, -, g1, n1⟩ := onResults_pointing_step initialState p1 hp1
  obtain ⟨s2, c2, r2, d2, -, g2, n2⟩ := onResults_pointing_step s1 p2 hp2
  obtain ⟨s3, c3, r3, d3, b3, g3, n3⟩ := onResults_pointing_step s2 p3 hp3
  obtain ⟨s4, c4, r4, d4, b4, g4, n4⟩ := onResults_hold_step s3 u1 hu1 d3 (by rw [b3]; decide)
  obtain ⟨s5, c5, r5, d5, -, g5, n5⟩ := onResults_hold_step s4 u2 hu2 d4
    (by rw [b4, b3]; decide)
  obtain ⟨s6, c6, r6, d6, g6, n6⟩ := onResults_noHand_step s5 n hn
  refine ⟨s6, c1, c2, c3, c4, c5, c6, run_cons_some _ _ _ _ _ _ _ r1
    (run_cons_some _ _ _ _ _ _ _ r2 (run_cons_some _ _ _ _ _ _ _ r3
      (run_cons_some _ _ _ _ _ _ _ r4 (run_cons_some _ _ _ _ _ _ _ r5
        (run_cons_some _ _ _ _ _ _ _ r6 rfl))))), d6, ⟨?_, ?_, ?_⟩, ⟨g4, g5⟩, g6,
    ⟨n1, n2, n3, n4, n5⟩, ?_⟩
  · rw [g1]; rfl
  · rw [g2, if_pos d1]
  · rw [g3, if_pos d2]
  · rw [n6, if_pos d5]

/-- One update shrinks the distance to the raw value by the factor 11/20. -/
theorem ema_sub (c x : ℚ) : ema c x - c = 11 / 20 * (x - c) := by
  unfold ema smoothingAlpha; ring

/-- The nearest integer is within 1/2. -/
theorem roundHalfEven_sub (x : ℚ) : |(roundHalfEven x : ℚ) - x| ≤ 1 / 2 := by
  have h1 := Int.floor_le x
  have h2 := Int.lt_floor_add_one x
  unfold roundHalfEven
  split_ifs with a b c
  · rw [abs_le]; constructor <;> linarith
  · rw [abs_le]; push_cast; constructor <;> linarith
  · rw [abs_le]; constructor <;> linarith
  · rw [abs_le]; push_cast; constructor <;> linarith

/-- The spacing is positive. -/
theorem ulp_pos (q : ℚ) : 0 < ulp q := by
  unfold ulp
  split_ifs <;> positivity

/-- The spacing is at most 2^-52 of the magnitude, or the subnormal spacing. -/
theorem ulp_le (q : ℚ) : ulp q ≤ 2 ^ (-52 : ℤ) * |q| + 2 ^ (-1074 : ℤ) := by
  unfold ulp
  split_ifs with h
  · have := abs_nonneg q
    have : (0 : ℚ) ≤ 2 ^ (-52 : ℤ) * |q| := by positivity
    linarith
  · have hq : (0 : ℚ) < |q| := lt_of_lt_of_le (by positivity) (not_lt.mp h)
    have h1 : ((2 : ℕ) : ℚ) ^ Int.log 2 |q| ≤ |q| := Int.zpow_log_le_self (by norm_num) hq
    have h2 : (2 : ℚ) ^ (Int.log 2 |q| - 52) = 2 ^ (-52 : ℤ) * 2 ^ Int.log 2 |q| := by
      rw [← zpow_add₀ (by norm_num : (2 : ℚ) ≠ 0)]
      congr 1; ring
    rw [h2]
    have h3 : (2 : ℚ) ^ (-52 : ℤ) * 2 ^ Int.log 2 |q| ≤ 2 ^ (-52 : ℤ) * |q| :=
      mul_le_mul_of_nonneg_left (by exact_mod_cast h1) (by positivity)
    have : (0 : ℚ) < 2 ^ (-1074 : ℤ) := by positivity
    linarith

/-- Rounding moves a value by at most half a spacing. -/
theorem roundNearest_err (q : ℚ) :
    |roundNearest q - q| ≤ 2 ^ (-53 : ℤ) * |q| + 2 ^ (-1075 : ℤ) := by
  have hu := ulp_pos q
  have h1 : roundNearest q - q = ((roundHalfEven (q / ulp q) : ℚ) - q / ulp q) * ulp q := by
    unfold roundNearest
    field_simp
  rw [h1, abs_mul, abs_of_pos hu]
  have h2 := roundHalfEven_sub (q / ulp q)
  have h3 := ulp_le q
  have h4 : |(roundHalfEven (q / ulp q) : ℚ) - q / ulp q| * ulp q ≤ 1 / 2 * ulp q :=
    mul_le_mul_of_nonneg_right h2 hu.le
  have e1 : (2 : ℚ) ^ (-53 : ℤ) = 1 / 2 * 2 ^ (-52 : ℤ) := by
    rw [show (-53 : ℤ) = -52 + -1 by norm_num, zpow_add₀ (by norm_num : (2 : ℚ) ≠ 0)]
    norm_num
  have e2 : (2 : ℚ) ^ (-1075 : ℤ) = 1 / 2 * 2 ^ (-1074 : ℤ) := by
    rw [show (-1075 : ℤ) = -1074 + -1 by norm_num, zpow_add₀ (by norm_num : (2 : ℚ) ≠ 0)]
    norm_num
  rw [e1, e2]
  calc |(roundHalfEven (q / ulp q) : ℚ) - q / ulp q| * ulp q ≤ 1 / 2 * ulp q := h4
    _ ≤ 1 / 2 * (2 ^ (-52 : ℤ) * |q| + 2 ^ (-1074 : ℤ)) :=
        mul_le_mul_of_nonneg_left h3 (by norm_num)
    _ = 1 / 2 * 2 ^ (-52 : ℤ) * |q| + 1 / 2 * 2 ^ (-1074 : ℤ) := by ring


/-- The spacing of a value of known binade in the normal range. -/
theorem ulp_of_binade (q : ℚ) (e : ℤ) (he : -1022 ≤ e) (h1 : 2 ^ e ≤ |q|)
    (h2 : |q| < 2 ^ (e + 1)) : ulp q = 2 ^ (e - 52) := by
  have hq : (0 : ℚ) < |q| := lt_of_lt_of_le (by positivity) h1
  have hlow : ¬ |q| < 2 ^ (-1022 : ℤ) := by
    rw [not_lt]
    exact le_trans (zpow_le_zpow_right₀ (by norm_num) he) h1
  have hlog : Int.log 2 |q| = e := by
    apply le_antisymm
    · have := (Int.lt_zpow_iff_log_lt (by norm_num : 1 < 2) hq).mp
        (show |q| < ((2 : ℕ) : ℚ) ^ (e + 1) by exact_mod_cast h2)
      omega
    · exact (Int.zpow_le_iff_le_log (by norm_num : 1 < 2) hq).mp
        (show ((2 : ℕ) : ℚ) ^ e ≤ |q| by exact_mod_cast h1)
  rw [ulp, if_neg hlow, hlog]

/-- The nearest integer of a value of known integer part. -/
theorem roundHalfEven_of_floor (x : ℚ) (f : ℤ) (h1 : (f : ℚ) ≤ x) (h2 : x < f + 1) :
    roundHalfEven x =
      if x - f < 1 / 2 then f else if 1 / 2 < x - f then f + 1
      else if f % 2 = 0 then f else f + 1 := by
  have hf : ⌊x⌋ = f := Int.floor_eq_iff.mpr ⟨h1, h2⟩
  rw [roundHalfEven, hf]

/-- The double of a value of known binade and integer part of its
significand. -/
theorem toDouble_of_binade (q : ℚ) (e f m : ℤ) (he : -1022 ≤ e) (h1 : 2 ^ e ≤ |q|)
    (h2 : |q| < 2 ^ (e + 1)) (hf1 : (f : ℚ) ≤ q / 2 ^ (e - 52))
    (hf2 : q / 2 ^ (e - 52) < f + 1)
    (hm : (if q / 2 ^ (e - 52) - f < 1 / 2 then f else if 1 / 2 < q / 2 ^ (e - 52) - f then f + 1
      else if f % 2 = 0 then f else f + 1) = m)
    (hfin : |(m : ℚ) * 2 ^ (e - 52)| < 2 ^ 1024) :
    toDouble q = some ((m : ℚ) * 2 ^ (e - 52)) := by
  have hr : roundNearest q = m * 2 ^ (e - 52) := by
    rw [roundNearest, ulp_of_binade q e he h1 h2, roundHalfEven_of_floor _ f hf1 hf2, hm]
  rw [toDouble, hr, if_pos hfin]

/-- The literal `0.45` denotes `alphaD`. -/
theorem toDouble_alpha : toDouble smoothingAlpha = some alphaD := by
  have h := toDouble_of_binade (45 / 100) (-2) 8106479329266892 8106479329266893 (by norm_num)
    (by norm_num [abs_of_pos]) (by norm_num [abs_of_pos]) (by norm_num) (by norm_num)
    (by norm_num) (by norm_num [abs_of_pos])
  rw [smoothingAlpha, h, alphaD]; norm_num

/-- The subtraction `1 - smoothingAlpha` returns `betaD` (a tie, rounded to
the even significand). -/
theorem toDouble_beta : toDouble (1 - alphaD) = some betaD := by
  have h := toDouble_of_binade (1 - alphaD) (-1) 4953959590107545 4953959590107546
    (by norm_num)
    (by norm_num [alphaD, abs_of_pos]) (by norm_num [alphaD, abs_of_pos])
    (by norm_num [alphaD]) (by norm_num [alphaD])
    (by norm_num [alphaD]) (by norm_num [abs_of_pos])
  rw [h, betaD]; norm_num


/-- The blend with its two constants evaluated. -/
theorem emaD_eq (c s : ℚ) :
    emaD c s = (toDouble (c * alphaD)).bind fun p1 =>
      (toDouble (s * betaD)).bind fun p2 => toDouble (p1 + p2) := by
  simp [emaD, toDouble_alpha, toDouble_beta]

/-- A value of magnitude at most 2^1023 rounds to a finite double. -/
theorem toDouble_of_le (q : ℚ) (h : |q| ≤ 2 ^ 1023) : toDouble q = some (roundNearest q) := by
  have h1 := roundNearest_err q
  have h2 : |roundNearest q| ≤ |roundNearest q - q| + |q| := by
    have := abs_add (roundNearest q - q) q
    simpa using this
  have h3 : |roundNearest q| < 2 ^ 1024 := by
    norm_num at h h1 ⊢
    linarith
  rw [toDouble, if_pos h3]

/-- The blend of 0.3 with itself is the next double. -/
theorem emaD_threeTenths : emaD threeTenthsD threeTenthsD = some threeTenthsNextD := by
  have h1 := toDouble_of_binade (threeTenthsD * alphaD) (-3) 4863887597560135 4863887597560136
    (by norm_num)
    (by norm_num [threeTenthsD, alphaD, abs_of_pos])
    (by norm_num [threeTenthsD, alphaD, abs_of_pos])
    (by norm_num [threeTenthsD, alphaD]) (by norm_num [threeTenthsD, alphaD])
    (by norm_num [threeTenthsD, alphaD]) (by norm_num [abs_of_pos])
  have h2 := toDouble_of_binade (threeTenthsD * betaD) (-3) 5944751508129054 5944751508129055
    (by norm_num)
    (by norm_num [threeTenthsD, betaD, abs_of_pos])
    (by norm_num [threeTenthsD, betaD, abs_of_pos])
    (by norm_num [threeTenthsD, betaD]) (by norm_num [threeTenthsD, betaD])
    (by norm_num [threeTenthsD, betaD]) (by norm_num [abs_of_pos])
  have h3 := toDouble_of_binade
    ((4863887597560136 : ℤ) * 2 ^ ((-3 : ℤ) - 52) + (5944751508129055 : ℤ) * 2 ^ ((-3 : ℤ) - 52))
    (-2) 5404319552844595 5404319552844596
    (by norm_num) (by norm_num [abs_of_pos]) (by norm_num [abs_of_pos])
    (by norm_num) (by norm_num) (by norm_num) (by norm_num [abs_of_pos])
  rw [emaD_eq, h1, Option.some_bind, h2, Option.some_bind, h3, threeTenthsNextD]
  norm_num

/-- The blend of 0.3 with the next double is that next double. -/
theorem emaD_threeTenthsNext : emaD threeTenthsD threeTenthsNextD = some threeTenthsNextD := by
  have h1 := toDouble_of_binade (threeTenthsD * alphaD) (-3) 4863887597560135 4863887597560136
    (by norm_num)
    (by norm_num [threeTenthsD, alphaD, abs_of_pos])
    (by norm_num [threeTenthsD, alphaD, abs_of_pos])
    (by norm_num [threeTenthsD, alphaD]) (by norm_num [threeTenthsD, alphaD])
    (by norm_num [threeTenthsD, alphaD]) (by norm_num [abs_of_pos])
  have h2 := toDouble_of_binade (threeTenthsNextD * betaD) (-3) 5944751508129056
    5944751508129056 (by norm_num)
    (by norm_num [threeTenthsNextD, betaD, abs_of_pos])
    (by norm_num [threeTenthsNextD, betaD, abs_of_pos])
    (by norm_num [threeTenthsNextD, betaD]) (by norm_num [threeTenthsNextD, betaD])
    (by norm_num [threeTenthsNextD, betaD]) (by norm_num [abs_of_pos])
  have h3 := toDouble_of_binade
    ((4863887597560136 : ℤ) * 2 ^ ((-3 : ℤ) - 52) + (5944751508129056 : ℤ) * 2 ^ ((-3 : ℤ) - 52))
    (-2) 5404319552844596 5404319552844596
    (by norm_num) (by norm_num [abs_of_pos]) (by norm_num [abs_of_pos])
    (by norm_num) (by norm_num) (by norm_num) (by norm_num [abs_of_pos])
  rw [emaD_eq, h1, Option.some_bind, h2, Option.some_bind, h3, threeTenthsNextD]
  norm_num


/-- The arithmetic of one update: from the rounding bounds of the three
operations to the bound on the new distance. -/
theorem emaD_step_arith (X S D E1 E2 E3 P1 P2 T : ℚ) (hX0 : 0 ≤ X) (hD0 : 0 ≤ D)
    (hX : X ≤ 2 ^ 1000) (hD : D ≤ 2 ^ 1001) (hS : S ≤ D + X)
    (e1 : E1 ≤ 2 ^ (-53 : ℤ) * (alphaD * X) + 2 ^ (-1075 : ℤ))
    (e2 : E2 ≤ 2 ^ (-53 : ℤ) * (betaD * S) + 2 ^ (-1075 : ℤ))
    (t1 : P1 ≤ E1 + alphaD * X) (t2 : P2 ≤ E2 + betaD * S) (t3 : T ≤ P1 + P2) :
    alphaD * X ≤ 2 ^ 1023 ∧ betaD * S ≤ 2 ^ 1023 ∧ T ≤ 2 ^ 1023 ∧
      (E3 ≤ 2 ^ (-53 : ℤ) * T + 2 ^ (-1075 : ℤ) →
        E3 + E1 + E2 + betaD * D + (alphaD + betaD - 1) * X
          ≤ 14 / 25 * D + (2 ^ (-51 : ℤ) * X + 2 ^ (-1073 : ℤ))) := by
  norm_num [alphaD, betaD] at *
  refine ⟨by linarith, by linarith, by linarith, fun e3 => by linarith⟩

/-- One update in doubles: the result is finite, and its distance to the raw
value is at most 14/25 of the previous distance plus the rounding of the
three operations. -/
theorem emaD_step (c s : ℚ) (hc : |c| ≤ 2 ^ 1000) (hs : |s - c| ≤ 2 ^ 1001) :
    ∃ r, emaD c s = some r ∧
      |r - c| ≤ 14 / 25 * |s - c| + (2 ^ (-51 : ℤ) * |c| + 2 ^ (-1073 : ℤ)) := by
  have hS : |s| ≤ |s - c| + |c| := by
    have := abs_add (s - c) c
    simpa using this
  have a1 : |c * alphaD| = alphaD * |c| := by
    rw [abs_mul, abs_of_pos (show (0 : ℚ) < alphaD by norm_num [alphaD]), mul_comm]
  have a2 : |s * betaD| = betaD * |s| := by
    rw [abs_mul, abs_of_pos (show (0 : ℚ) < betaD by norm_num [betaD]), mul_comm]
  have e1 := roundNearest_err (c * alphaD)
  have e2 := roundNearest_err (s * betaD)
  have e3 := roundNearest_err (roundNearest (c * alphaD) + roundNearest (s * betaD))
  have t1 : |roundNearest (c * alphaD)| ≤ |roundNearest (c * alphaD) - c * alphaD|
      + |c * alphaD| := by
    have := abs_add (roundNearest (c * alphaD) - c * alphaD) (c * alphaD)
    simpa using this
  have t2 : |roundNearest (s * betaD)| ≤ |roundNearest (s * betaD) - s * betaD|
      + |s * betaD| := by
    have := abs_add (roundNearest (s * betaD) - s * betaD) (s * betaD)
    simpa using this
  have t3 := abs_add (roundNearest (c * alphaD)) (roundNearest (s * betaD))
  rw [a1] at e1 t1
  rw [a2] at e2 t2
  obtain ⟨b1, b2, b3, hfin⟩ := emaD_step_arith |c| |s| |s - c| _ _
    |roundNearest (roundNearest (c * alphaD) + roundNearest (s * betaD))
      - (roundNearest (c * alphaD) + roundNearest (s * betaD))| _ _ _
    (abs_nonneg c) (abs_nonneg _) hc hs hS e1 e2 t1 t2 t3
  have d1 : toDouble (c * alphaD) = some (roundNearest (c * alphaD)) :=
    toDouble_of_le _ (by rw [a1]; exact b1)
  have d2 : toDouble (s * betaD) = some (roundNearest (s * betaD)) :=
    toDouble_of_le _ (by rw [a2]; exact b2)
  have d3 : toDouble (roundNearest (c * alphaD) + roundNearest (s * betaD))
      = some (roundNearest (roundNearest (c * alphaD) + roundNearest (s * betaD))) :=
    toDouble_of_le _ b3
  refine ⟨_, by rw [emaD_eq, d1, Option.some_bind, d2, Option.some_bind, d3], ?_⟩
  have key : roundNearest (roundNearest (c * alphaD) + roundNearest (s * betaD)) - c
      = (roundNearest (roundNearest (c * alphaD) + roundNearest (s * betaD))
          - (roundNearest (c * alphaD) + roundNearest (s * betaD)))
        + (roundNearest (c * alphaD) - c * alphaD)
        + (roundNearest (s * betaD) - s * betaD)
        + betaD * (s - c) + c * (alphaD + betaD - 1) := by ring
  have k1 : |betaD * (s - c)| = betaD * |s - c| := by
    rw [abs_mul, abs_of_pos (show (0 : ℚ) < betaD by norm_num [betaD])]
  have k2 : |c * (alphaD + betaD - 1)| = (alphaD + betaD - 1) * |c| := by
    rw [abs_mul, abs_of_pos (show (0 : ℚ) < alphaD + betaD - 1 by norm_num [alphaD, betaD]),
      mul_comm]
  have tri : ∀ a b c d e : ℚ, |a + b + c + d + e| ≤ |a| + |b| + |c| + |d| + |e| := by
    intro a b c d e
    have h1 := abs_add (a + b + c + d) e
    have h2 := abs_add (a + b + c) d
    have h3 := abs_add (a + b) c
    have h4 := abs_add a b
    linarith
  rw [key]
  refine le_trans (tri _ _ _ _ _) ?_
  rw [k1, k2]
  exact hfin e3


/-- The invariant of the iteration: the bound on the distance is kept by one
update. -/
theorem emaD_step_inv (X D D1 : ℚ) (hX : X ≤ 2 ^ 1000) (hD : D ≤ 2 ^ 1001)
    (h : D1 ≤ 14 / 25 * D + (2 ^ (-51 : ℤ) * X + 2 ^ (-1073 : ℤ))) : D1 ≤ 2 ^ 1001 := by
  norm_num at *
  linarith

/-- The geometric bound after one more update. -/
theorem geom_step (p D D1 k V : ℚ) (h0 : 0 ≤ p) (h1 : D1 ≤ 14 / 25 * D + k)
    (h2 : V ≤ p * D1 + 25 / 11 * k * (1 - p)) :
    V ≤ p * (14 / 25) * D + 25 / 11 * k * (1 - p * (14 / 25)) := by
  have := mul_le_mul_of_nonneg_left h1 h0
  linarith

/-- After `n` updates in doubles the smoothed point is finite and its distance
to the raw point has shrunk geometrically, up to the accumulated rounding. -/
theorem smoothRepeatD_bound (cx cy : ℚ) (hcx : |cx| ≤ 2 ^ 1000) (hcy : |cy| ≤ 2 ^ 1000)
    (n : Nat) :
    ∀ s : State, |s.smoothedX - cx| ≤ 2 ^ 1001 → |s.smoothedY - cy| ≤ 2 ^ 1001 →
      ∃ s1, smoothRepeatD cx cy n s = some s1 ∧
        |s1.smoothedX - cx| ≤ (14 / 25) ^ n * |s.smoothedX - cx|
          + 25 / 11 * (2 ^ (-51 : ℤ) * |cx| + 2 ^ (-1073 : ℤ)) * (1 - (14 / 25) ^ n) ∧
        |s1.smoothedY - cy| ≤ (14 / 25) ^ n * |s.smoothedY - cy|
          + 25 / 11 * (2 ^ (-51 : ℤ) * |cy| + 2 ^ (-1073 : ℤ)) * (1 - (14 / 25) ^ n) := by
  induction n with
  | zero => intro s _ _; exact ⟨s, rfl, by simp, by simp⟩
  | succ n ih =>
    intro s hx hy
    obtain ⟨rx, ex, bx⟩ := emaD_step cx s.smoothedX hcx hx
    obtain ⟨ry, ey, bY⟩ := emaD_step cy s.smoothedY hcy hy
    have hstep : smoothD s cx cy = some { s with smoothedX := rx, smoothedY := ry } := by
      simp [smoothD, ex, ey]
    obtain ⟨s1, hr, h1x, h1y⟩ := ih { s with smoothedX := rx, smoothedY := ry }
      (emaD_step_inv _ _ _ hcx hx bx) (emaD_step_inv _ _ _ hcy hy bY)
    refine ⟨s1, by rw [smoothRepeatD, hstep, Option.some_bind, hr], ?_, ?_⟩
    · rw [pow_succ]
      exact geom_step _ _ _ _ _ (pow_nonneg (by norm_num) n) bx h1x
    · rw [pow_succ]
      exact geom_step _ _ _ _ _ (pow_nonneg (by norm_num) n) bY h1y

/-- The Pointing branch with no session open: the session opens, seeded with
the raw point, and nothing is drawn. -/
theorem pointingBranch_idle (s : State) (cx cy now : ℚ) (hd : s.isDrawing = false) :
    pointingBranch s cx cy now
      = ({ s with drawBuffer := DRAW_BUFFER_MAX, drawStartTime := now, smoothedX := cx,
                  smoothedY := cy, isDrawing := true, lastX := cx, lastY := cy }, []) := by
  simp [pointingBranch, hd]

/-- The Pointing branch with a session open: one segment from the last point
to the smoothed point, which becomes the last point. -/
theorem pointingBranch_open (s : State) (cx cy now : ℚ) (hd : s.isDrawing = true) :
    pointingBranch s cx cy now
      = ({ s with drawBuffer := DRAW_BUFFER_MAX, lastX := s.smoothedX, lastY := s.smoothedY },
          [Call.segment s.lastX s.lastY s.smoothedX s.smoothedY]) := by
  simp [pointingBranch, hd]

/-- A hand frame with no session open leaves the smoothed point at the raw
point, whatever the gesture. -/
theorem handBranch_idle_smoothed (s : State) (g : Gesture) (tip : Landmark) (f : Frame)
    (hd : s.isDrawing = false) :
    (handBranch s g tip f).1.smoothedX = (1 - tip.x) * f.width ∧
      (handBranch s g tip f).1.smoothedY = tip.y * f.height := by
  by_cases hg : g = Gesture.Pointing
  · subst hg
    rw [handBranch_pointing, pointingBranch_idle _ _ _ _ (by simpa [smooth] using hd)]
    exact ⟨rfl, rfl⟩
  · rw [handBranch_other s g tip f hg, otherBranch_idle _ _ _ _ (by simpa [smooth] using hd)]
    exact ⟨rfl, rfl⟩

/-- The hand frame that ends a session by an empty buffer leaves the smoothed
point blended. -/
theorem handBranch_other_end_smoothed (s : State) (g : Gesture) (tip : Landmark) (f : Frame)
    (hg : g ≠ Gesture.Pointing) (hd : s.isDrawing = true) (hb : s.drawBuffer ≤ 0) :
    (handBranch s g tip f).1.smoothedX = ema ((1 - tip.x) * f.width) s.smoothedX ∧
      (handBranch s g tip f).1.smoothedY = ema (tip.y * f.height) s.smoothedY := by
  rw [handBranch_other s g tip f hg, otherBranch_end _ _ _ _ (by simpa [smooth] using hd)
    (by simpa [smooth] using hb)]
  exact ⟨rfl, rfl⟩

/-- A blended value equals the raw value only if the previous value did. -/
theorem ema_eq_iff (c x : ℚ) : ema c x = c ↔ x = c := by
  rw [← sub_eq_zero, ema_sub, mul_eq_zero, sub_eq_zero]
  constructor
  · rintro (h | h)
    · norm_num at h
    · exact h
  · exact fun h => Or.inr h

/-- What the handler does on any frame on which it returns. -/
theorem onResults_cases (s : State) (f : Frame) (r : State × List Call)
    (h : onResults s f = some r) :
    (f.noHand ∧ r = noHandBranch s) ∨
      (¬ f.noHand ∧ ∃ g tip, f.indexTip = some tip ∧ r = handBranch s g tip f) := by
  unfold onResults at h
  split at h
  · rename_i lm rest heq
    right
    refine ⟨by simp [Frame.noHand, heq], ?_⟩
    cases hg : recognizeGesture (some lm) with
    | none => simp [hg] at h
    | some g =>
      cases ht : lm[8]? with
      | none => simp [hg, ht] at h
      | some tip =>
        simp only [hg, ht, Option.bind_eq_bind, Option.some_bind, Option.pure_def,
          Option.some.injEq] at h
        exact ⟨g, tip, by simp [Frame.indexTip, heq, ht], h.symm⟩
  · rename_i hne
    left
    simp only [Option.pure_def, Option.some.injEq] at h
    refine ⟨?_, h.symm⟩
    unfold Frame.noHand
    cases hm : f.results.multiHandLandmarks with
    | none => exact Or.inl rfl
    | some l =>
      cases l with
      | nil => exact Or.inr rfl
      | cons lm rest => exact absurd hm (hne lm rest)

/-- The buffer after a hand frame: refilled by Pointing, one less while it
holds an open session, otherwise as it was. -/
theorem handBranch_drawBuffer (s : State) (g : Gesture) (tip : Landmark) (f : Frame) :
    (handBranch s g tip f).1.drawBuffer
      = if g = Gesture.Pointing then DRAW_BUFFER_MAX
        else if s.isDrawing = true ∧ 0 < s.drawBuffer then s.drawBuffer - 1
        else s.drawBuffer := by
  by_cases hg : g = Gesture.Pointing
  · subst hg
    rw [if_pos rfl]
    exact (handBranch_pointing_open s tip f).2
  · rw [if_neg hg, handBranch_other s g tip f hg]
    cases hd : s.isDrawing
    · rw [otherBranch_idle _ _ _ _ (by simpa [smooth] using hd)]
      simp [smooth]
    · by_cases hb : 0 < s.drawBuffer
      · rw [otherBranch_hold _ _ _ _ (by simpa [smooth] using hd) (by simpa [smooth] using hb)]
        simp [smooth, hb]
      · rw [otherBranch_end _ _ _ _ (by simpa [smooth] using hd)
          (by simpa [smooth] using not_lt.mp hb)]
        simp [smooth, hb]

/-- One frame keeps the buffer within 0..5. -/
theorem onResults_drawBuffer_range (s : State) (f : Frame) (r : State × List Call)
    (h : onResults s f = some r) (hs : 0 ≤ s.drawBuffer ∧ s.drawBuffer ≤ DRAW_BUFFER_MAX) :
    0 ≤ r.1.drawBuffer ∧ r.1.drawBuffer ≤ DRAW_BUFFER_MAX := by
  have h5 : DRAW_BUFFER_MAX = 5 := rfl
  rcases onResults_cases s f r h with ⟨-, rfl⟩ | ⟨-, g, tip, -, rfl⟩
  · exact hs
  · rw [handBranch_drawBuffer]
    split_ifs with h1 h2
    · rw [h5]; decide
    · omega
    · exact hs

/-- Every run keeps the buffer within 0..5. -/
theorem run_drawBuffer_range (fs : List Frame) :
    ∀ (s s1 : State) (cs : List (List Call)), run s fs = some (s1, cs) →
      (0 ≤ s.drawBuffer ∧ s.drawBuffer ≤ DRAW_BUFFER_MAX) →
      0 ≤ s1.drawBuffer ∧ s1.drawBuffer ≤ DRAW_BUFFER_MAX := by
  induction fs with
  | nil =>
    intro s s1 cs h hs
    simp only [run, Option.some.injEq, Prod.mk.injEq] at h
    rw [← h.1]; exact hs
  | cons f fs ih =>
    intro s s1 cs h hs
    cases hr : onResults s f with
    | none => simp [run, hr] at h
    | some r =>
      rw [run_cons s f fs r hr] at h
      obtain ⟨⟨s2, cs2⟩, hrun2, heq⟩ := Option.map_eq_some'.mp h
      simp only [Prod.mk.injEq] at heq
      rw [← heq.1]
      exact ih r.1 s2 cs2 hrun2 (onResults_drawBuffer_range s f r hr hs)

/-- On well-formed frames every run returns. -/
theorem run_wellFormed (fs : List Frame) :
    ∀ s : State, (∀ f ∈ fs, f.wellFormed) → ∃ s1 cs, run s fs = some (s1, cs) := by
  induction fs with
  | nil => intro s _; exact ⟨s, [], rfl⟩
  | cons f fs ih =>
    intro s hall
    have hstep : ∃ r, onResults s f = some r := by
      rcases hall f (List.mem_cons_self _ _) with hn | ⟨g, hg⟩
      · exact ⟨_, onResults_noHand s f hn⟩
      · obtain ⟨tip, -, hstep⟩ := onResults_hand f g hg
        exact ⟨_, hstep s⟩
    obtain ⟨r, hr⟩ := hstep
    obtain ⟨s1, cs, hrun⟩ := ih r.1 (fun f1 hf1 => hall f1 (List.mem_cons_of_mem _ hf1))
    exact ⟨s1, r.2 :: cs, run_cons_some _ _ _ _ _ _ _ hr hrun⟩

theorem scenario_wellFormed : ∀ f ∈ scenario, f.wellFormed := by
  intro f hf
  simp only [scenario, List.mem_cons, List.mem_singleton, List.not_mem_nil, or_false] at hf
  rcases hf with rfl | rfl | rfl | rfl | rfl | rfl
  · exact Or.inr ⟨_, handGesture_pointingPose _⟩
  · exact Or.inr ⟨_, handGesture_pointingPose _⟩
  · exact Or.inr ⟨_, handGesture_pointingPose _⟩
  · exact Or.inr ⟨_, handGesture_unknownPose _⟩
  · exact Or.inr ⟨_, handGesture_unknownPose _⟩
  · exact Or.inl (Or.inl rfl)

/-- The calls of the fist action contain no segment. -/
theorem followSegments_fistAction (pen : Option (ℚ × ℚ)) (s : State) (g : Gesture) :
    followSegments pen (fistAction s g).2 = some pen := by
  rw [fistAction_snd]
  split_ifs <;> rfl

/-- One frame moves the pen as the state's last point moves: every segment of
the frame starts at the pen, and the pen after the frame is the last point of
the new state, or gone when the session is over. -/
theorem onResults_connected (s : State) (f : Frame) (r : State × List Call)
    (h : onResults s f = some r) :
    ∃ pen1,
      followSegments (if !s.isDrawing && r.1.isDrawing then f.rawPoint else penOf s) r.2
        = some pen1 ∧
      (if r.1.isDrawing then pen1 else none) = penOf r.1 := by
  rcases onResults_cases s f r h with ⟨-, rfl⟩ | ⟨-, g, tip, htip, rfl⟩
  · refine ⟨penOf s, ?_, ?_⟩
    · cases hd : s.isDrawing <;> simp [noHandBranch, followSegments, hd]
    · simp [noHandBranch, penOf]
  · by_cases hg : g = Gesture.Pointing
    · subst hg
      rw [handBranch_pointing]
      cases hd : s.isDrawing
      · rw [pointingBranch_idle _ _ _ _ (by simpa [smooth] using hd)]
        exact ⟨f.rawPoint, by simp [followSegments],
          by simp [penOf, Frame.rawPoint, htip]⟩
      · rw [pointingBranch_open _ _ _ _ (by simpa [smooth] using hd)]
        exact ⟨some (ema ((1 - tip.x) * f.width) s.smoothedX,
            ema (tip.y * f.height) s.smoothedY),
          by simp [penOf, followSegments, smooth, hd], by simp [penOf, smooth, hd]⟩
    · rw [handBranch_other s g tip f hg]
      cases hd : s.isDrawing
      · rw [otherBranch_idle _ _ _ _ (by simpa [smooth] using hd)]
        refine ⟨penOf s, ?_, ?_⟩
        · simp only [List.nil_append, followSegments_fistAction]
          simp [smooth, hd]
        · simp [penOf, smooth, hd]
      · by_cases hb : 0 < s.drawBuffer
        · rw [otherBranch_hold _ _ _ _ (by simpa [smooth] using hd)
            (by simpa [smooth] using hb)]
          refine ⟨some (ema ((1 - tip.x) * f.width) s.smoothedX,
            ema (tip.y * f.height) s.smoothedY), ?_, ?_⟩
          · simp only [List.singleton_append, followSegments, smooth, penOf, hd]
            simp [followSegments_fistAction]
          · simp [penOf, smooth, hd]
        · rw [otherBranch_end _ _ _ _ (by simpa [smooth] using hd)
            (by simpa [smooth] using not_lt.mp hb)]
          have hsnap : ∀ (c : List Call) (p : Option (ℚ × ℚ)),
              followSegments p ((if f.now - s.drawStartTime > 200 then [Call.saveSnapshot]
                else []) ++ c) = followSegments p c := by
            intro c p
            split_ifs <;> rfl
          refine ⟨penOf s, ?_, ?_⟩
          · simp only [smooth, hsnap, followSegments_fistAction]
            simp
          · simp [penOf, smooth]

/-- From a pen that is the state's pen, every run on well-formed frames is
connected. -/
theorem connectedFrom_penOf (fs : List Frame) :
    ∀ s : State, (∀ f ∈ fs, f.wellFormed) → connectedFrom (penOf s) s fs = true := by
  induction fs with
  | nil => intro s _; rfl
  | cons f fs ih =>
    intro s hall
    have hstep : ∃ r, onResults s f = some r := by
      rcases hall f (List.mem_cons_self _ _) with hn | ⟨g, hg⟩
      · exact ⟨_, onResults_noHand s f hn⟩
      · obtain ⟨tip, -, hstep⟩ := onResults_hand f g hg
        exact ⟨_, hstep s⟩
    obtain ⟨r, hr⟩ := hstep
    obtain ⟨pen1, hc, hpen⟩ := onResults_connected s f r hr
    simp only [connectedFrom, hr, hc, hpen]
    exact ih r.1 (fun f1 hf1 => hall f1 (List.mem_cons_of_mem _ hf1))

/-- When no test holds the result is "Unknown". -/
theorem firstMatch_none (l : List (Bool × Gesture)) (h : ∀ t ∈ l, t.1 = false) :
    firstMatch l = Gesture.Unknown := by
  induction l with
  | nil => rfl
  | cons t rest ih =>
    rw [firstMatch, if_neg (by simp [h t (List.mem_cons_self _ _)])]
    exact ih (fun t1 ht1 => h t1 (List.mem_cons_of_mem _ ht1))

/-- When some test holds and every test that holds carries the label `g`, the
result is `g`. -/
theorem firstMatch_unique (l : List (Bool × Gesture)) (g : Gesture)
    (hex : ∃ t ∈ l, t.1 = true) (hall : ∀ t ∈ l, t.1 = true → t.2 = g) :
    firstMatch l = g := by
  induction l with
  | nil => obtain ⟨t, ht, -⟩ := hex; simp at ht
  | cons t rest ih =>
    rw [firstMatch]
    by_cases h1 : t.1 = true
    · rw [if_pos h1]; exact hall t (List.mem_cons_self _ _) h1
    · rw [if_neg h1]
      refine ih ?_ (fun t1 ht1 => hall t1 (List.mem_cons_of_mem _ ht1))
      obtain ⟨t1, ht1, h2⟩ := hex
      rcases List.mem_cons.mp ht1 with rfl | ht1
      · exact absurd h2 h1
      · exact ⟨t1, ht1, h2⟩

/-- When at most one label can hold, the order of the tests does not matter. -/
theorem firstMatch_perm (l1 l2 : List (Bool × Gesture)) (hp : l1.Perm l2)
    (hex : ∀ t1 ∈ l2, ∀ t2 ∈ l2, t1.1 = true → t2.1 = true → t1.2 = t2.2) :
    firstMatch l1 = firstMatch l2 := by
  by_cases h : ∃ t ∈ l2, t.1 = true
  · obtain ⟨t, ht, hb⟩ := h
    rw [firstMatch_unique l2 t.2 ⟨t, ht, hb⟩ (fun t1 ht1 h1 => hex t1 ht1 t ht h1 hb),
      firstMatch_unique l1 t.2 ⟨t, hp.mem_iff.mpr ht, hb⟩
        (fun t1 ht1 h1 => hex t1 (hp.mem_iff.mp ht1) t ht h1 hb)]
  · have h2 : ∀ t ∈ l2, t.1 = false := by
      intro t ht
      cases hb : t.1
      · rfl
      · exact absurd ⟨t, ht, hb⟩ h
    rw [firstMatch_none l2 h2, firstMatch_none l1 (fun t ht => h2 t (hp.mem_iff.mp ht))]

/-- The pointing test on a full frame, in closed form. -/
theorem pointingCheck_eq (a0 a1 a2 a3 a4 a5 a6 a7 a8 a9 a10 a11 a12 a13 a14 a15 a16
    a17 a18 a19 a20 : Landmark) :
    pointingCheck [a0, a1, a2, a3, a4, a5, a6, a7, a8, a9, a10, a11, a12, a13, a14, a15, a16,
           a17, a18, a19, a20] = some
      (decide (a8.y < a6.y) && decide (a12.y > a10.y) && decide (a16.y > a14.y)
        && decide (a20.y > a18.y)) := by
  simp [pointingCheck]

/-- The three tests on a full frame, in closed form. -/
theorem branchTests_eq (a0 a1 a2 a3 a4 a5 a6 a7 a8 a9 a10 a11 a12 a13 a14 a15 a16
    a17 a18 a19 a20 : Landmark) (v : LoopVars) (p : Bool)
    (hv : fingerLoop [a0, a1, a2, a3, a4, a5, a6, a7, a8, a9, a10, a11, a12, a13, a14, a15,
      a16, a17, a18, a19, a20] = some v)
    (hp : pointingCheck [a0, a1, a2, a3, a4, a5, a6, a7, a8, a9, a10, a11, a12, a13, a14, a15,
      a16, a17, a18, a19, a20] = some p) :
    branchTests [a0, a1, a2, a3, a4, a5, a6, a7, a8, a9, a10, a11, a12, a13, a14, a15, a16,
           a17, a18, a19, a20]
        = some [(p, Gesture.Pointing), (v.fistCandidate && v.extendedCount == 0, Gesture.Fist),
            (v.extendedCount == 4, Gesture.OpenPalm)] ∧
      recognizeGesture (some [a0, a1, a2, a3, a4, a5, a6, a7, a8, a9, a10, a11, a12, a13, a14,
          a15, a16, a17, a18, a19, a20])
        = some (firstMatch [(p, Gesture.Pointing),
            (v.fistCandidate && v.extendedCount == 0, Gesture.Fist),
            (v.extendedCount == 4, Gesture.OpenPalm)]) := by
  constructor
  · simp only [branchTests, hv, hp, Option.bind_eq_bind, Option.some_bind, Option.pure_def]
  · simp only [recognizeGesture, hv, hp, unusedGeometry, firstMatch,
      Option.bind_eq_bind, Option.some_bind, Option.pure_def, List.getElem?_cons_succ,
      List.getElem?_cons_zero]
    split_ifs <;> rfl

/-- On a full frame the pointing test holds only with exactly one finger
extended. -/
theorem pointing_forces_one (lm : List Landmark) (h : lm.length = 21) (v : LoopVars)
    (p : Bool) (hv : fingerLoop lm = some v) (hp : pointingCheck lm = some p)
    (hpt : p = true) : v.extendedCount = 1 := by
  obtain ⟨a0, a1, a2, a3, a4, a5, a6, a7, a8, a9, a10, a11, a12, a13, a14, a15, a16,
    a17, a18, a19, a20, rfl⟩ := list_length_21 lm h
  rw [fingerLoop_eq] at hv
  rw [pointingCheck_eq] at hp
  cases hv
  cases hp
  simp only [Bool.and_eq_true, decide_eq_true_eq] at hpt
  obtain ⟨⟨⟨i, m⟩, r⟩, q⟩ := hpt
  simp [toNat_decide, i, lt_asymm m, lt_asymm r, lt_asymm q]

/-! ## Properties of the classifier -/

/-- C1: on every 21-landmark frame whose index tip is strictly above its PIP
joint while the middle, ring and pinky tips are strictly below theirs,
`recognizeGesture` returns "Pointing", whatever the other landmarks and
coordinates are. -/
theorem recognizeGesture_pointing (lm : List Landmark) (h : lm.length = 21)
    (hIndex : lm[8].y < lm[6].y) (hMiddle : lm[12].y > lm[10].y)
    (hRing : lm[16].y > lm[14].y) (hPinky : lm[20].y > lm[18].y) :
    recognizeGesture (some lm) = some Gesture.Pointing ∧
      Gesture.Pointing.label = "Pointing" := by
  refine ⟨?_, rfl⟩
  rw [recognizeGesture_eq_classifySpec lm h, classifySpec,
    if_pos (show PointingCond lm h from ⟨hIndex, hMiddle, hRing, hPinky⟩)]

theorem recognizeGesture_pointing_witness :
    recognizeGesture (some (pose (1/4) (3/4) (3/4) (3/4))) = some Gesture.Pointing ∧
      Gesture.Pointing.label = "Pointing" :=
  recognizeGesture_pointing (pose (1/4) (3/4) (3/4) (3/4)) rfl
    (by norm_num [pose, lmY]) (by norm_num [pose, lmY]) (by norm_num [pose, lmY]) (by norm_num [pose, lmY])

/-- C2: on every 21-landmark frame in which each of the four non-thumb tips
has y at least its MCP joint y and none has y strictly less than its PIP
joint y, `recognizeGesture` returns "Fist". -/
theorem recognizeGesture_fist (lm : List Landmark) (h : lm.length = 21)
    (hMcp8 : lm[8].y ≥ lm[5].y) (hMcp12 : lm[12].y ≥ lm[9].y)
    (hMcp16 : lm[16].y ≥ lm[13].y) (hMcp20 : lm[20].y ≥ lm[17].y)
    (hPip8 : ¬ lm[8].y < lm[6].y) (hPip12 : ¬ lm[12].y < lm[10].y)
    (hPip16 : ¬ lm[16].y < lm[14].y) (hPip20 : ¬ lm[20].y < lm[18].y) :
    recognizeGesture (some lm) = some Gesture.Fist ∧ Gesture.Fist.label = "Fist" := by
  refine ⟨?_, rfl⟩
  have hp : ¬ PointingCond lm h := fun hp => hPip8 hp.1
  have hf : FistCond lm h :=
    ⟨⟨hMcp8, hMcp12, hMcp16, hMcp20⟩, by simp [extendedFingers, isExtended, *]⟩
  rw [recognizeGesture_eq_classifySpec lm h, classifySpec, if_neg hp, if_pos hf]

theorem recognizeGesture_fist_witness :
    recognizeGesture (some (pose (3/4) (3/4) (3/4) (3/4))) = some Gesture.Fist ∧
      Gesture.Fist.label = "Fist" :=
  recognizeGesture_fist (pose (3/4) (3/4) (3/4) (3/4)) rfl
    (by norm_num [pose, lmY]) (by norm_num [pose, lmY]) (by norm_num [pose, lmY]) (by norm_num [pose, lmY])
    (by norm_num [pose, lmY]) (by norm_num [pose, lmY]) (by norm_num [pose, lmY]) (by norm_num [pose, lmY])

/-- C3: on every 21-landmark frame in which all four non-thumb fingers are
extended (tip y strictly less than PIP y) and which does not match the
Pointing pattern, `recognizeGesture` returns "Open Palm". -/
theorem recognizeGesture_openPalm (lm : List Landmark) (h : lm.length = 21)
    (hExt8 : lm[8].y < lm[6].y) (hExt12 : lm[12].y < lm[10].y)
    (hExt16 : lm[16].y < lm[14].y) (hExt20 : lm[20].y < lm[18].y)
    (hNotPointing : ¬ (lm[8].y < lm[6].y ∧ lm[12].y > lm[10].y ∧ lm[16].y > lm[14].y ∧
      lm[20].y > lm[18].y)) :
    recognizeGesture (some lm) = some Gesture.OpenPalm ∧
      Gesture.OpenPalm.label = "Open Palm" := by
  refine ⟨?_, rfl⟩
  have hf : ¬ FistCond lm h := by
    intro hf
    have h0 := hf.2
    simp [extendedFingers, isExtended, hExt8] at h0
  have ho : OpenPalmCond lm h := by
    simp [OpenPalmCond, extendedFingers, isExtended, *]
  rw [recognizeGesture_eq_classifySpec lm h, classifySpec,
    if_neg (show ¬ PointingCond lm h from hNotPointing), if_neg hf, if_pos ho]

theorem recognizeGesture_openPalm_witness :
    recognizeGesture (some (pose (1/4) (1/4) (1/4) (1/4))) = some Gesture.OpenPalm ∧
      Gesture.OpenPalm.label = "Open Palm" :=
  recognizeGesture_openPalm (pose (1/4) (1/4) (1/4) (1/4)) rfl
    (by norm_num [pose, lmY]) (by norm_num [pose, lmY]) (by norm_num [pose, lmY]) (by norm_num [pose, lmY])
    (by norm_num [pose, lmY])

/-- C4: on every 21-landmark frame `recognizeGesture` equals the four-branch
reference decision taken in priority order (Pointing, else Fist, else Open
Palm, else Unknown); it returns "Unknown" exactly when none of the three
conditions holds; and it never returns "None" for a present landmark array. -/
theorem recognizeGesture_refines_classifySpec (lm : List Landmark) (h : lm.length = 21) :
    recognizeGesture (some lm) = some (classifySpec lm h) ∧
      (recognizeGesture (some lm) = some Gesture.Unknown ↔
        ¬ PointingCond lm h ∧ ¬ FistCond lm h ∧ ¬ OpenPalmCond lm h) ∧
      (∀ present : List Landmark, recognizeGesture (some present) ≠ some Gesture.None) := by
  refine ⟨recognizeGesture_eq_classifySpec lm h, ?_, recognizeGesture_ne_None⟩
  rw [recognizeGesture_eq_classifySpec lm h, classifySpec]
  by_cases hp : PointingCond lm h <;> by_cases hf : FistCond lm h <;>
    by_cases ho : OpenPalmCond lm h <;> simp [hp, hf, ho]

theorem recognizeGesture_refines_classifySpec_witness :
    recognizeGesture (some (pose (1/4) (1/4) (3/4) (3/4)))
        = some (classifySpec (pose (1/4) (1/4) (3/4) (3/4)) rfl) ∧
      classifySpec (pose (1/4) (1/4) (3/4) (3/4)) rfl = Gesture.Unknown :=
  ⟨(recognizeGesture_refines_classifySpec (pose (1/4) (1/4) (3/4) (3/4)) rfl).1, by
    norm_num [classifySpec, PointingCond, FistCond, OpenPalmCond, extendedFingers, isExtended,
      pose, lmY]⟩

/-! ## Properties of the stroke state machine -/

/-- C5: debounce.  After a Pointing hand frame (which leaves a session open),
`k` consecutive non-Pointing hand frames with 1 ≤ k ≤ 5 leave the session
open, and the sixth consecutive one ends it. -/
theorem debounce_six_frames (s0 : State) (f0 : Frame) (fs : List Frame)
    (hf0 : f0.handGesture = some Gesture.Pointing)
    (hfs : ∀ f ∈ fs, f.nonPointingHand) :
    (1 ≤ fs.length → fs.length ≤ 5 →
        ∃ s cs, run s0 (f0 :: fs) = some (s, cs) ∧ s.isDrawing = true) ∧
      (fs.length = 6 → ∃ s cs, run s0 (f0 :: fs) = some (s, cs) ∧ s.isDrawing = false) := by
  obtain ⟨tip, -, hstep⟩ := onResults_hand f0 _ hf0
  obtain ⟨hd, hb⟩ := handBranch_pointing_open s0 tip f0
  constructor
  · intro _ hle
    obtain ⟨s, cs, hrun, hs, -⟩ := run_hold fs 5 _ hd (by rw [hb]; rfl) hle hfs
    exact ⟨s, _ :: cs, by rw [run_cons s0 f0 fs _ (hstep s0), hrun]; rfl, hs⟩
  · intro hlen
    obtain ⟨s, cs, hrun, hs⟩ := run_exhaust fs 5 _ hd (by rw [hb]; rfl) hlen hfs
    exact ⟨s, _ :: cs, by rw [run_cons s0 f0 fs _ (hstep s0), hrun]; rfl, hs⟩

theorem debounce_six_frames_witness :
    (∃ s cs, run initialState (handFrame pointingPose 0 :: unknownFrames [33, 66, 99])
        = some (s, cs) ∧ s.isDrawing = true) ∧
      (∃ s cs, run initialState
          (handFrame pointingPose 0 :: unknownFrames [33, 66, 99, 132, 165, 198])
        = some (s, cs) ∧ s.isDrawing = false) :=
  ⟨(debounce_six_frames initialState (handFrame pointingPose 0) (unknownFrames [33, 66, 99])
      (handGesture_pointingPose 0) (unknownFrames_nonPointing _)).1 (by decide) (by decide),
   (debounce_six_frames initialState (handFrame pointingPose 0)
      (unknownFrames [33, 66, 99, 132, 165, 198])
      (handGesture_pointingPose 0) (unknownFrames_nonPointing _)).2 rfl⟩

/-- C6 fails at an elapsed time of exactly 200 ms: a session opened at t = 0
and kept through five non-Pointing frames ends on the non-Pointing frame read
at t = 200 without any call (so without `saveSnapshot`). -/
theorem duration_exactly_200_counterexample :
    ∃ s cs s1, run initialState (handFrame pointingPose 0 :: unknownFrames [33, 66, 99, 132, 165])
        = some (s, cs) ∧ s.isDrawing = true ∧ s.drawBuffer = 0 ∧
      (handFrame unknownPose 200).nonPointingHand ∧
      (handFrame unknownPose 200).now - s.drawStartTime = 200 ∧
      onResults s (handFrame unknownPose 200) = some (s1, []) ∧ s1.isDrawing = false := by
  obtain ⟨tip, -, hstep⟩ := onResults_hand _ _ (handGesture_pointingPose 0)
  obtain ⟨hd, hb⟩ := handBranch_pointing_open initialState tip (handFrame pointingPose 0)
  have hst := handBranch_pointing_start initialState tip (handFrame pointingPose 0) rfl
  obtain ⟨s, cs, hrun, hs, hbuf⟩ := run_hold (unknownFrames [33, 66, 99, 132, 165]) 5 _ hd
    (by rw [hb]; rfl) (by decide) (unknownFrames_nonPointing _)
  have hstart := run_hold_start (unknownFrames [33, 66, 99, 132, 165]) 5 _ hd
    (by rw [hb]; rfl) (by decide) (unknownFrames_nonPointing _) s cs hrun
  rw [hst] at hstart
  have hbuf0 : s.drawBuffer = 0 := by rw [hbuf]; rfl
  have hnow : (handFrame unknownPose 200).now = 200 := rfl
  have hstart0 : s.drawStartTime = 0 := by rw [hstart]; rfl
  obtain ⟨tip2, -, hstep2⟩ := onResults_hand _ _ (handGesture_unknownPose 200)
  have hcalls : (handBranch s Gesture.Unknown tip2 (handFrame unknownPose 200)).2 = [] := by
    rw [handBranch_other s _ tip2 _ (by decide),
      otherBranch_end _ _ _ _ (by simpa [smooth] using hs) (by simp [smooth, hbuf0]),
      fistAction_snd]
    simp [smooth, hnow, hstart0]
  refine ⟨s, (handBranch initialState Gesture.Pointing tip (handFrame pointingPose 0)).2 :: cs,
    (handBranch s Gesture.Unknown tip2 (handFrame unknownPose 200)).1,
    ?_, hs, hbuf0, ⟨Gesture.Unknown, handGesture_unknownPose 200, by decide⟩, ?_, ?_, ?_⟩
  · rw [run_cons _ _ _ _ (hstep initialState), hrun]; rfl
  · rw [hnow, hstart0]; norm_num
  · rw [hstep2 s, ← hcalls]
  · exact handBranch_other_end s _ tip2 _ (by decide) hs (by rw [hbuf0])

/-- C6, amended: on the non-Pointing hand frame that ends a session by an
empty buffer, `saveSnapshot` is not called when the time elapsed since the
session start is at most 200 ms, and is called (once) when it is more than
200 ms. -/
theorem duration_commit_over_200 (s : State) (f : Frame) (hd : s.isDrawing = true)
    (hb : s.drawBuffer = 0) (hf : f.nonPointingHand) :
    ∃ s1 calls, onResults s f = some (s1, calls) ∧ s1.isDrawing = false ∧
      (f.now - s.drawStartTime ≤ 200 → snapshotCount calls = 0) ∧
      (f.now - s.drawStartTime > 200 → snapshotCount calls = 1) := by
  obtain ⟨g, hg, hne⟩ := hf
  obtain ⟨tip, -, hstep⟩ := onResults_hand f g hg
  have hcount := handBranch_other_end_snapshot s g tip f hne hd (by rw [hb])
  refine ⟨(handBranch s g tip f).1, (handBranch s g tip f).2, hstep s,
    handBranch_other_end s g tip f hne hd (by rw [hb]), ?_, ?_⟩
  · intro h; rw [hcount, if_neg (not_lt.mpr h)]
  · intro h; rw [hcount, if_pos h]

theorem duration_commit_over_200_witness :
    ∃ s1 calls,
      onResults { initialState with isDrawing := true } (handFrame unknownPose 250)
        = some (s1, calls) ∧ s1.isDrawing = false ∧
      ((handFrame unknownPose 250).now - (0 : ℚ) ≤ 200 → snapshotCount calls = 0) ∧
      ((handFrame unknownPose 250).now - (0 : ℚ) > 200 → snapshotCount calls = 1) :=
  duration_commit_over_200 { initialState with isDrawing := true } (handFrame unknownPose 250)
    rfl rfl ⟨Gesture.Unknown, handGesture_unknownPose 250, by decide⟩

/-- C7: a frame without a hand calls `saveSnapshot` exactly once when a
session was open, whatever the elapsed time and the buffer, makes no call
when none was open, and leaves no session open. -/
theorem noHand_commits_open_session (s : State) (f : Frame) (hf : f.noHand) :
    ∃ s1 calls, onResults s f = some (s1, calls) ∧
      calls = (if s.isDrawing then [Call.saveSnapshot] else []) ∧
      snapshotCount calls = (if s.isDrawing then 1 else 0) ∧
      s1.isDrawing = false := by
  refine ⟨(noHandBranch s).1, (noHandBranch s).2, onResults_noHand s f hf, ?_, ?_, ?_⟩
  · simp [noHandBranch]
  · cases hd : s.isDrawing <;> simp [noHandBranch, snapshotCount, hd]
  · simp [noHandBranch]

theorem noHand_commits_open_session_witness :
    ∃ s1 calls,
      onResults { initialState with isDrawing := true, drawStartTime := 100, drawBuffer := 3 }
        (noHandFrame 165) = some (s1, calls) ∧
      calls = [Call.saveSnapshot] ∧ snapshotCount calls = 1 ∧ s1.isDrawing = false :=
  noHand_commits_open_session
    { initialState with isDrawing := true, drawStartTime := 100, drawBuffer := 3 }
    (noHandFrame 165) (Or.inl rfl)

/-- C8: fist edge-triggering.  From a state whose fist latch is down, a run
of N ≥ 1 consecutive hand frames classified "Fist" calls `triggerScreenshot`
exactly once, on its first frame; and a single Fist frame between two Unknown
frames calls it exactly once. -/
theorem fist_run_triggers_once (s : State) (f : Frame) (fs : List Frame)
    (hs : s.lastFistState = false) (hf : f.handGesture = some Gesture.Fist)
    (hfs : ∀ f1 ∈ fs, f1.handGesture = some Gesture.Fist) :
    (∃ s1 c cs, run s (f :: fs) = some (s1, c :: cs) ∧ cs.length = fs.length ∧
        screenshotCount c = 1 ∧ (∀ c1 ∈ cs, screenshotCount c1 = 0) ∧
        screenshotCount (c :: cs).flatten = 1) ∧
      (∀ (s0 : State) (u1 u2 : Frame), u1.handGesture = some Gesture.Unknown →
        u2.handGesture = some Gesture.Unknown →
        ∃ s1 cs, run s0 [u1, f, u2] = some (s1, cs) ∧ cs.map screenshotCount = [0, 1, 0] ∧
          screenshotCount cs.flatten = 1) := by
  constructor
  · obtain ⟨s1, c, hstep, h1, h2⟩ := onResults_fist_step s f _ hf
    obtain ⟨s2, cs, hrun, hlen, hcs⟩ := run_fist_held fs s1 (by rw [h1]; rfl) hfs
    have hc : screenshotCount c = 1 := by rw [h2]; simp [hs]
    refine ⟨s2, c, cs, run_cons_some _ _ _ _ _ _ _ hstep hrun, hlen, hc, hcs, ?_⟩
    have hj := screenshotCount_flatten cs hcs
    simp only [screenshotCount, List.flatten_cons, List.count_append] at hc hj ⊢
    rw [hc, hj]
  · intro s0 u1 u2 hu1 hu2
    obtain ⟨s1, c1, hstep1, a1, a2⟩ := onResults_fist_step s0 u1 _ hu1
    obtain ⟨s2, c2, hstep2, b1, b2⟩ := onResults_fist_step s1 f _ hf
    obtain ⟨s3, c3, hstep3, d1, d2⟩ := onResults_fist_step s2 u2 _ hu2
    have e1 : screenshotCount c1 = 0 := by rw [a2]; simp
    have e2 : screenshotCount c2 = 1 := by rw [b2, a1]; simp
    have e3 : screenshotCount c3 = 0 := by rw [d2]; simp
    refine ⟨s3, [c1, c2, c3], run_cons_some _ _ _ _ _ _ _ hstep1
      (run_cons_some _ _ _ _ _ _ _ hstep2 (run_cons_some _ _ _ _ _ _ _ hstep3 rfl)), ?_, ?_⟩
    · simp only [List.map_cons, List.map_nil, e1, e2, e3]
    · simp only [screenshotCount, List.flatten_cons, List.flatten_nil, List.count_append,
        List.count_nil] at e1 e2 e3 ⊢
      rw [e1, e2, e3]

theorem fist_run_triggers_once_witness :
    (∃ s1 c cs, run initialState [handFrame fistPose 0, handFrame fistPose 33,
          handFrame fistPose 66] = some (s1, c :: cs) ∧ cs.length = 2 ∧
        screenshotCount c = 1 ∧ (∀ c1 ∈ cs, screenshotCount c1 = 0) ∧
        screenshotCount (c :: cs).flatten = 1) ∧
      (∃ s1 cs, run initialState [handFrame unknownPose 33, handFrame fistPose 0,
          handFrame unknownPose 66] = some (s1, cs) ∧ cs.map screenshotCount = [0, 1, 0] ∧
          screenshotCount cs.flatten = 1) :=
  have h := fist_run_triggers_once initialState (handFrame fistPose 0)
    [handFrame fistPose 33, handFrame fistPose 66] rfl (handGesture_fistPose 0)
    (by
      intro f1 hf1
      simp only [List.mem_cons, List.mem_singleton, List.not_mem_nil, or_false] at hf1
      rcases hf1 with rfl | rfl <;> exact handGesture_fistPose _)
  ⟨h.1, h.2 initialState (handFrame unknownPose 33) (handFrame unknownPose 66)
    (handGesture_unknownPose 33) (handGesture_unknownPose 66)⟩

/-- C9 fails as stated: in the scenario the three Pointing frames draw two
segments, not three, since the frame that opens the session draws none. -/
theorem scenario_three_segments_counterexample :
    ∃ s cs, run initialState scenario = some (s, cs) ∧
      cs.map segmentCount = [0, 1, 1, 1, 1, 0] ∧
      segmentCount (cs.take 3).flatten ≠ 3 := by
  obtain ⟨s, c1, c2, c3, c4, c5, c6, hrun, -, ⟨g1, g2, g3⟩, ⟨g4, g5⟩, g6, -, -⟩ :=
    run_three_two_one (handFrame pointingPose 0) (handFrame pointingPose 33)
      (handFrame pointingPose 66) (handFrame unknownPose 99) (handFrame unknownPose 132)
      (noHandFrame 165) (handGesture_pointingPose 0) (handGesture_pointingPose 33)
      (handGesture_pointingPose 66) ⟨Gesture.Unknown, handGesture_unknownPose 99, by decide⟩
      ⟨Gesture.Unknown, handGesture_unknownPose 132, by decide⟩ (Or.inl rfl)
  refine ⟨s, [c1, c2, c3, c4, c5, c6], hrun, ?_, ?_⟩
  · simp only [List.map_cons, List.map_nil, g1, g2, g3, g4, g5, g6]
  · simp [segmentCount_append, g1, g2, g3]

/-- C9, amended: from the initial state, three Pointing hand frames, two
Unknown hand frames and a frame without a hand (at any clock readings, so
also at t = 0, 33, 66, 99, 132, 165 ms) draw two segments during the three
Pointing frames (none on the first, which opens the session), two bridging
segments during the two Unknown frames, and then call `saveSnapshot` exactly
once, on the frame without a hand, whatever the time elapsed. -/
theorem scenario_two_pointing_segments (p1 p2 p3 u1 u2 n : Frame)
    (hp1 : p1.handGesture = some Gesture.Pointing)
    (hp2 : p2.handGesture = some Gesture.Pointing)
    (hp3 : p3.handGesture = some Gesture.Pointing)
    (hu1 : u1.handGesture = some Gesture.Unknown)
    (hu2 : u2.handGesture = some Gesture.Unknown) (hn : n.noHand) :
    ∃ s cs, run initialState [p1, p2, p3, u1, u2, n] = some (s, cs) ∧
      s.isDrawing = false ∧
      cs.map segmentCount = [0, 1, 1, 1, 1, 0] ∧
      segmentCount (cs.take 3).flatten = 2 ∧
      segmentCount ((cs.drop 3).take 2).flatten = 2 ∧
      cs.map snapshotCount = [0, 0, 0, 0, 0, 1] := by
  obtain ⟨s, c1, c2, c3, c4, c5, c6, hrun, hd, ⟨g1, g2, g3⟩, ⟨g4, g5⟩, g6,
      ⟨n1, n2, n3, n4, n5⟩, n6⟩ :=
    run_three_two_one p1 p2 p3 u1 u2 n hp1 hp2 hp3 ⟨Gesture.Unknown, hu1, by decide⟩
      ⟨Gesture.Unknown, hu2, by decide⟩ hn
  refine ⟨s, [c1, c2, c3, c4, c5, c6], hrun, hd, ?_, ?_, ?_, ?_⟩
  · simp only [List.map_cons, List.map_nil, g1, g2, g3, g4, g5, g6]
  · simp [segmentCount_append, g1, g2, g3]
  · simp [segmentCount_append, g4, g5]
  · simp only [List.map_cons, List.map_nil, n1, n2, n3, n4, n5, n6]

theorem scenario_two_pointing_segments_witness :
    ∃ s cs, run initialState scenario = some (s, cs) ∧
      s.isDrawing = false ∧
      cs.map segmentCount = [0, 1, 1, 1, 1, 0] ∧
      segmentCount (cs.take 3).flatten = 2 ∧
      segmentCount ((cs.drop 3).take 2).flatten = 2 ∧
      cs.map snapshotCount = [0, 0, 0, 0, 0, 1] :=
  scenario_two_pointing_segments (handFrame pointingPose 0) (handFrame pointingPose 33)
    (handFrame pointingPose 66) (handFrame unknownPose 99) (handFrame unknownPose 132)
    (noHandFrame 165) (handGesture_pointingPose 0) (handGesture_pointingPose 33)
    (handGesture_pointingPose 66) (handGesture_unknownPose 99) (handGesture_unknownPose 132)
    (Or.inl rfl)

/-! ## Properties of the smoothing filter -/

/-- C10 fails in the arithmetic of the code: with the raw value 0.3 on both
axes, updating the smoothed point (0.3, 0.3) moves it to the next double, so
the raw point is not a fixed point; and from that next double no number of
updates brings the smoothed point to the raw point. -/
theorem smoothing_double_counterexample :
    (∃ s1, smoothD { initialState with smoothedX := threeTenthsD, smoothedY := threeTenthsD }
        threeTenthsD threeTenthsD = some s1 ∧ s1.smoothedX ≠ threeTenthsD) ∧
      ∀ n : Nat, ∃ s1,
        smoothRepeatD threeTenthsD threeTenthsD n
          { initialState with smoothedX := threeTenthsNextD, smoothedY := threeTenthsNextD }
          = some s1 ∧ s1.smoothedX ≠ threeTenthsD := by
  have hne : threeTenthsNextD ≠ threeTenthsD := by norm_num [threeTenthsNextD, threeTenthsD]
  constructor
  · exact ⟨{ initialState with smoothedX := threeTenthsNextD, smoothedY := threeTenthsNextD },
      by simp [smoothD, emaD_threeTenths], hne⟩
  · intro n
    refine ⟨{ initialState with smoothedX := threeTenthsNextD, smoothedY := threeTenthsNextD },
      ?_, hne⟩
    induction n with
    | zero => rfl
    | succ n ih =>
      rw [smoothRepeatD]
      simp only [smoothD, emaD_threeTenthsNext, Option.some_bind, Option.bind_eq_bind,
        Option.pure_def]
      exact ih

/-- C10, amended: with the update of lines 185-186 evaluated in IEEE double
arithmetic, for every raw point and every starting smoothed point with
coordinates of magnitude at most 2^1000, every number `n` of updates with the
same raw point gives a finite smoothed point whose distance to the raw point
is, on each axis, at most (14/25)^n times the starting distance plus
25/11 * (2^-51 * |raw| + 2^-1073); so from some number of updates on the
smoothed point stays within 2^-49 * |raw| + 2^-1071 of the raw point on each
axis. -/
theorem smoothing_converges_in_doubles (s : State) (cx cy : ℚ)
    (hcx : |cx| ≤ 2 ^ 1000) (hcy : |cy| ≤ 2 ^ 1000)
    (hsx : |s.smoothedX| ≤ 2 ^ 1000) (hsy : |s.smoothedY| ≤ 2 ^ 1000) :
    (∀ n : Nat, ∃ s1, smoothRepeatD cx cy n s = some s1 ∧
        |s1.smoothedX - cx| ≤ (14 / 25) ^ n * |s.smoothedX - cx|
          + 25 / 11 * (2 ^ (-51 : ℤ) * |cx| + 2 ^ (-1073 : ℤ)) ∧
        |s1.smoothedY - cy| ≤ (14 / 25) ^ n * |s.smoothedY - cy|
          + 25 / 11 * (2 ^ (-51 : ℤ) * |cy| + 2 ^ (-1073 : ℤ))) ∧
      ∃ N : Nat, ∀ n : Nat, N ≤ n → ∃ s1, smoothRepeatD cx cy n s = some s1 ∧
        |s1.smoothedX - cx| ≤ 2 ^ (-49 : ℤ) * |cx| + 2 ^ (-1071 : ℤ) ∧
        |s1.smoothedY - cy| ≤ 2 ^ (-49 : ℤ) * |cy| + 2 ^ (-1071 : ℤ) := by
  have hx : |s.smoothedX - cx| ≤ 2 ^ 1001 := by
    have := abs_sub s.smoothedX cx
    norm_num at hcx hsx ⊢
    linarith
  have hy : |s.smoothedY - cy| ≤ 2 ^ 1001 := by
    have := abs_sub s.smoothedY cy
    norm_num at hcy hsy ⊢
    linarith
  have hpos : ∀ n : Nat, (0 : ℚ) < (14 / 25) ^ n := fun n => pow_pos (by norm_num) n
  have hε : (0 : ℚ) < 2 ^ (-1073 : ℤ) := zpow_pos (by norm_num) _
  have hk : ∀ c : ℚ, (0 : ℚ) < 2 ^ (-51 : ℤ) * |c| + 2 ^ (-1073 : ℤ) := fun c =>
    add_pos_of_nonneg_of_pos (mul_nonneg (zpow_pos (by norm_num) _).le (abs_nonneg c)) hε
  have weaken : ∀ (p k D V : ℚ), 0 < p → 0 < k → V ≤ p * D + 25 / 11 * k * (1 - p) →
      V ≤ p * D + 25 / 11 * k := by
    intro p k D V hp hk h
    have := mul_pos hk hp
    linarith
  have hall : ∀ n : Nat, ∃ s1, smoothRepeatD cx cy n s = some s1 ∧
        |s1.smoothedX - cx| ≤ (14 / 25) ^ n * |s.smoothedX - cx|
          + 25 / 11 * (2 ^ (-51 : ℤ) * |cx| + 2 ^ (-1073 : ℤ)) ∧
        |s1.smoothedY - cy| ≤ (14 / 25) ^ n * |s.smoothedY - cy|
          + 25 / 11 * (2 ^ (-51 : ℤ) * |cy| + 2 ^ (-1073 : ℤ)) := by
    intro n
    obtain ⟨s1, hr, h1, h2⟩ := smoothRepeatD_bound cx cy hcx hcy n s hx hy
    exact ⟨s1, hr, weaken _ _ _ _ (hpos n) (hk cx) h1, weaken _ _ _ _ (hpos n) (hk cy) h2⟩
  refine ⟨hall, ?_⟩
  have hM : (0 : ℚ) < |s.smoothedX - cx| + |s.smoothedY - cy| + 1 := by
    have h3 := abs_nonneg (s.smoothedX - cx)
    have h4 := abs_nonneg (s.smoothedY - cy)
    linarith
  obtain ⟨N, hN⟩ := exists_pow_lt_of_lt_one (div_pos hε hM) (show (14 / 25 : ℚ) < 1 by norm_num)
  refine ⟨N, fun n hn => ?_⟩
  obtain ⟨s1, hr, h1, h2⟩ := hall n
  have hle : ((14 : ℚ) / 25) ^ n ≤ (14 / 25) ^ N :=
    pow_le_pow_of_le_one (by norm_num) (by norm_num) hn
  have hlt : ((14 : ℚ) / 25) ^ n
      < 2 ^ (-1073 : ℤ) / (|s.smoothedX - cx| + |s.smoothedY - cy| + 1) :=
    lt_of_le_of_lt hle hN
  rw [lt_div_iff₀ hM] at hlt
  have final : ∀ (p D M e Y V : ℚ), 0 ≤ p → 0 ≤ Y → 0 ≤ e → D ≤ M → p * M < e →
      V ≤ p * D + 25 / 11 * (Y + e) → V ≤ 4 * Y + 4 * e := by
    intro p D M e Y V hp hY he hDM hpe hV
    have h3 := mul_le_mul_of_nonneg_left hDM hp
    linarith
  have e49 : ∀ X : ℚ, (2 : ℚ) ^ (-49 : ℤ) * X = 4 * (2 ^ (-51 : ℤ) * X) := by
    intro X
    rw [show (-49 : ℤ) = 2 + -51 by norm_num, zpow_add₀ (by norm_num : (2 : ℚ) ≠ 0)]
    norm_num
    ring
  have e4 : (2 : ℚ) ^ (-1071 : ℤ) = 4 * 2 ^ (-1073 : ℤ) := by
    rw [show (-1071 : ℤ) = 2 + -1073 by norm_num, zpow_add₀ (by norm_num : (2 : ℚ) ≠ 0)]
    norm_num
  have h51 : ∀ X : ℚ, 0 ≤ X → (0 : ℚ) ≤ 2 ^ (-51 : ℤ) * X := fun X hX =>
    mul_nonneg (zpow_pos (by norm_num) _).le hX
  rw [e4, e49, e49]
  refine ⟨s1, hr, ?_, ?_⟩
  · exact final _ _ _ _ _ _ (hpos n).le (h51 _ (abs_nonneg _)) hε.le
      (by linarith [abs_nonneg (s.smoothedY - cy)]) hlt h1
  · exact final _ _ _ _ _ _ (hpos n).le (h51 _ (abs_nonneg _)) hε.le
      (by linarith [abs_nonneg (s.smoothedX - cx)]) hlt h2

theorem smoothing_converges_in_doubles_witness :
    (∀ n : Nat, ∃ s1, smoothRepeatD 1 1 n initialState = some s1 ∧
        |s1.smoothedX - 1| ≤ (14 / 25) ^ n * |initialState.smoothedX - 1|
          + 25 / 11 * (2 ^ (-51 : ℤ) * |(1 : ℚ)| + 2 ^ (-1073 : ℤ)) ∧
        |s1.smoothedY - 1| ≤ (14 / 25) ^ n * |initialState.smoothedY - 1|
          + 25 / 11 * (2 ^ (-51 : ℤ) * |(1 : ℚ)| + 2 ^ (-1073 : ℤ))) ∧
      ∃ N : Nat, ∀ n : Nat, N ≤ n → ∃ s1, smoothRepeatD 1 1 n initialState = some s1 ∧
        |s1.smoothedX - 1| ≤ 2 ^ (-49 : ℤ) * |(1 : ℚ)| + 2 ^ (-1071 : ℤ) ∧
        |s1.smoothedY - 1| ≤ 2 ^ (-49 : ℤ) * |(1 : ℚ)| + 2 ^ (-1071 : ℤ) :=
  smoothing_converges_in_doubles initialState 1 1 (by norm_num) (by norm_num)
    (by norm_num [initialState]) (by norm_num [initialState])

/-! ## Further properties of the frame handler -/

/-- C11: session opening.  On a Pointing hand frame processed with no session
open, the smoothed point becomes the raw canvas point
`((1 - x8) * width, y8 * height)` itself, whatever the previous smoothed
point was; the last point is that same point, the session start time is the
frame's clock, the buffer is 5, `isDrawing` is true, and the frame makes no
call at all, so no segment is drawn. -/
theorem session_opening (s : State) (f : Frame) (hd : s.isDrawing = false)
    (hf : f.handGesture = some Gesture.Pointing) :
    ∃ tip s1, f.indexTip = some tip ∧ onResults s f = some (s1, []) ∧
      s1.smoothedX = (1 - tip.x) * f.width ∧ s1.smoothedY = tip.y * f.height ∧
      s1.lastX = (1 - tip.x) * f.width ∧ s1.lastY = tip.y * f.height ∧
      s1.drawStartTime = f.now ∧ s1.drawBuffer = 5 ∧ s1.isDrawing = true := by
  obtain ⟨tip, htip, hstep⟩ := onResults_hand f _ hf
  have hb : handBranch s Gesture.Pointing tip f
      = ({ s with drawBuffer := DRAW_BUFFER_MAX, drawStartTime := f.now,
                  smoothedX := (1 - tip.x) * f.width, smoothedY := tip.y * f.height,
                  isDrawing := true, lastX := (1 - tip.x) * f.width,
                  lastY := tip.y * f.height, lastFistState := false }, []) := by
    rw [handBranch_pointing, pointingBranch_idle _ _ _ _ (by simpa [smooth] using hd)]
  refine ⟨tip, (handBranch s Gesture.Pointing tip f).1, htip, ?_, ?_⟩
  · rw [hstep s, hb]
  · rw [hb]; exact ⟨rfl, rfl, rfl, rfl, rfl, rfl, rfl⟩

theorem session_opening_witness :
    ∃ tip s1, (handFrame pointingPose 0).indexTip = some tip ∧
      onResults initialState (handFrame pointingPose 0) = some (s1, []) ∧
      s1.smoothedX = (1 - tip.x) * (handFrame pointingPose 0).width ∧
      s1.smoothedY = tip.y * (handFrame pointingPose 0).height ∧
      s1.lastX = (1 - tip.x) * (handFrame pointingPose 0).width ∧
      s1.lastY = tip.y * (handFrame pointingPose 0).height ∧
      s1.drawStartTime = (handFrame pointingPose 0).now ∧ s1.drawBuffer = 5 ∧
      s1.isDrawing = true :=
  session_opening initialState (handFrame pointingPose 0) rfl (handGesture_pointingPose 0)

/-- A frame without a hand calls no `triggerScreenshot` and leaves
`lastFistState` as it was, whatever the state. -/
theorem onResults_noHand_latch (s : State) (f : Frame) (hf : f.noHand) :
    ∃ s1 c, onResults s f = some (s1, c) ∧ screenshotCount c = 0 ∧
      s1.lastFistState = s.lastFistState := by
  refine ⟨(noHandBranch s).1, (noHandBranch s).2, onResults_noHand s f hf, ?_, rfl⟩
  cases hd : s.isDrawing <;> simp [noHandBranch, screenshotCount, hd]

/-- With the latch up, any number of frames without a hand followed by a Fist
frame fires no capture. -/
theorem run_noHand_fist (f2 : Frame) (hf2 : f2.handGesture = some Gesture.Fist)
    (ns : List Frame) :
    ∀ s : State, s.lastFistState = true → (∀ n0 ∈ ns, n0.noHand) →
      ∃ s1 cs, run s (ns ++ [f2]) = some (s1, cs) ∧
        cs.map screenshotCount = List.replicate ns.length 0 ++ [0] := by
  induction ns with
  | nil =>
    intro s hs _
    obtain ⟨s1, c, r, -, k⟩ := onResults_fist_step s f2 _ hf2
    refine ⟨s1, [c], run_cons_some _ _ _ _ _ _ _ r rfl, ?_⟩
    simp [k, hs]
  | cons n0 ns ih =>
    intro s hs hall
    obtain ⟨s1, c, r, k, l⟩ := onResults_noHand_latch s n0 (hall n0 (List.mem_cons_self _ _))
    obtain ⟨s2, cs, r2, k2⟩ := ih s1 (by rw [l, hs])
      (fun n1 h1 => hall n1 (List.mem_cons_of_mem _ h1))
    refine ⟨s2, c :: cs, run_cons_some _ _ _ _ _ _ _ r r2, ?_⟩
    simp [k, k2, List.replicate_succ]

/-- C12 fails as stated: from the initial state, after a Fist frame and a
frame without a hand the latch `lastFistState` is still true, and the next
Fist frame does not call `triggerScreenshot`. -/
theorem fist_noHand_fist_counterexample :
    ∃ s1 c1 s2 c2 s3 c3,
      onResults initialState (handFrame fistPose 0) = some (s1, c1) ∧
      onResults s1 (noHandFrame 33) = some (s2, c2) ∧
      onResults s2 (handFrame fistPose 66) = some (s3, c3) ∧
      s2.lastFistState = true ∧ screenshotCount c1 = 1 ∧ screenshotCount c3 = 0 := by
  obtain ⟨s1, c1, r1, l1, k1⟩ := onResults_fist_step initialState _ _ (handGesture_fistPose 0)
  have r2 := onResults_noHand s1 (noHandFrame 33) (Or.inl rfl)
  obtain ⟨s3, c3, r3, -, k3⟩ := onResults_fist_step (noHandBranch s1).1 _ _
    (handGesture_fistPose 66)
  have l2 : (noHandBranch s1).1.lastFistState = true := by
    rw [show (noHandBranch s1).1.lastFistState = s1.lastFistState from rfl, l1]; rfl
  refine ⟨s1, c1, (noHandBranch s1).1, (noHandBranch s1).2, s3, c3, r1, r2, r3, l2, ?_, ?_⟩
  · rw [k1]; rfl
  · rw [k3, l2]; rfl

/-- C12, amended: after any hand frame `lastFistState` records whether that
frame's gesture is "Fist" (so it is false after a hand frame of any other
gesture); a frame without a hand, processed in any state, calls no
`triggerScreenshot` and leaves `lastFistState` as it was, raised or not.
Consequently, from a state with the latch down, the sequence Fist, NoHand,
Fist fires the capture action on the first Fist frame only, and so does
Fist, any number of NoHand frames, Fist; while Fist, a hand frame of another
gesture, Fist fires it on both Fist frames. -/
theorem fist_latch_frozen_by_noHand (s : State) (f1 n f2 : Frame)
    (hs : s.lastFistState = false) (hf1 : f1.handGesture = some Gesture.Fist)
    (hn : n.noHand) (hf2 : f2.handGesture = some Gesture.Fist) :
    (∀ (s0 : State) (f : Frame) (g : Gesture), f.handGesture = some g →
        ∃ s1 c, onResults s0 f = some (s1, c) ∧
          s1.lastFistState = decide (g = Gesture.Fist)) ∧
      (∀ (s0 : State) (n0 : Frame), n0.noHand →
        ∃ s1 c, onResults s0 n0 = some (s1, c) ∧ screenshotCount c = 0 ∧
          s1.lastFistState = s0.lastFistState) ∧
      (∃ s1 cs, run s [f1, n, f2] = some (s1, cs) ∧ cs.map screenshotCount = [1, 0, 0]) ∧
      (∀ (u : Frame) (g : Gesture), u.handGesture = some g → g ≠ Gesture.Fist →
        ∃ s1 cs, run s [f1, u, f2] = some (s1, cs) ∧ cs.map screenshotCount = [1, 0, 1]) ∧
      (∀ ns : List Frame, (∀ n0 ∈ ns, n0.noHand) →
        ∃ s1 cs, run s (f1 :: (ns ++ [f2])) = some (s1, cs) ∧
          cs.map screenshotCount = 1 :: (List.replicate ns.length 0 ++ [0])) := by
  have hno : ∀ s0 : State, screenshotCount (noHandBranch s0).2 = 0 := by
    intro s0
    cases hd : s0.isDrawing <;> simp [noHandBranch, screenshotCount, hd]
  refine ⟨fun s0 f g hg => ?_, fun s0 n0 h0 => ?_, ?_, fun u g hu hg => ?_, fun ns hns => ?_⟩
  · obtain ⟨s1, c, hr, hl, -⟩ := onResults_fist_step s0 f g hg
    exact ⟨s1, c, hr, hl⟩
  · exact ⟨(noHandBranch s0).1, (noHandBranch s0).2, onResults_noHand s0 n0 h0, hno s0, rfl⟩
  · obtain ⟨s1, c1, r1, l1, k1⟩ := onResults_fist_step s f1 _ hf1
    have r2 := onResults_noHand s1 n hn
    have l2 : (noHandBranch s1).1.lastFistState = true := by
      rw [show (noHandBranch s1).1.lastFistState = s1.lastFistState from rfl, l1]; rfl
    obtain ⟨s3, c3, r3, -, k3⟩ := onResults_fist_step (noHandBranch s1).1 f2 _ hf2
    refine ⟨s3, [c1, (noHandBranch s1).2, c3], run_cons_some _ _ _ _ _ _ _ r1
      (run_cons_some _ _ _ _ _ _ _ r2 (run_cons_some _ _ _ _ _ _ _ r3 rfl)), ?_⟩
    simp only [List.map_cons, List.map_nil, k1, k3, hno, hs, l2]
    simp
  · obtain ⟨s1, c1, r1, l1, k1⟩ := onResults_fist_step s f1 _ hf1
    obtain ⟨s2, c2, r2, l2, k2⟩ := onResults_fist_step s1 u g hu
    obtain ⟨s3, c3, r3, -, k3⟩ := onResults_fist_step s2 f2 _ hf2
    refine ⟨s3, [c1, c2, c3], run_cons_some _ _ _ _ _ _ _ r1
      (run_cons_some _ _ _ _ _ _ _ r2 (run_cons_some _ _ _ _ _ _ _ r3 rfl)), ?_⟩
    simp only [List.map_cons, List.map_nil, k1, k2, k3, hs, l2]
    simp [hg]
  · obtain ⟨s1, c1, r1, l1, k1⟩ := onResults_fist_step s f1 _ hf1
    obtain ⟨s2, cs, r2, k2⟩ := run_noHand_fist f2 hf2 ns s1 (by rw [l1]; rfl) hns
    refine ⟨s2, c1 :: cs, run_cons_some _ _ _ _ _ _ _ r1 r2, ?_⟩
    simp [k1, k2, hs]

theorem fist_latch_frozen_by_noHand_witness :
    (∃ s1 cs, run initialState [handFrame fistPose 0, noHandFrame 33, handFrame fistPose 66]
        = some (s1, cs) ∧ cs.map screenshotCount = [1, 0, 0]) ∧
      (∃ s1 cs, run initialState
          [handFrame fistPose 0, handFrame unknownPose 33, handFrame fistPose 66]
        = some (s1, cs) ∧ cs.map screenshotCount = [1, 0, 1]) ∧
      (∃ s1 cs, run initialState
          [handFrame fistPose 0, noHandFrame 33, noHandFrame 66, handFrame fistPose 99]
        = some (s1, cs) ∧ cs.map screenshotCount = [1, 0, 0, 0]) ∧
      (∃ s1 c, onResults { initialState with lastFistState := true } (noHandFrame 33)
        = some (s1, c) ∧ screenshotCount c = 0 ∧ s1.lastFistState = true) :=
  have h := fist_latch_frozen_by_noHand initialState (handFrame fistPose 0) (noHandFrame 33)
    (handFrame fistPose 66) rfl (handGesture_fistPose 0) (Or.inl rfl) (handGesture_fistPose 66)
  have h99 := fist_latch_frozen_by_noHand initialState (handFrame fistPose 0) (noHandFrame 33)
    (handFrame fistPose 99) rfl (handGesture_fistPose 0) (Or.inl rfl) (handGesture_fistPose 99)
  ⟨h.2.2.1, h.2.2.2.1 (handFrame unknownPose 33) Gesture.Unknown (handGesture_unknownPose 33)
    (by decide),
    h99.2.2.2.2 [noHandFrame 33, noHandFrame 66] (by
      intro n0 hn0
      simp only [List.mem_cons, List.mem_singleton, List.not_mem_nil, or_false] at hn0
      rcases hn0 with rfl | rfl <;> exact Or.inl rfl),
    h.2.1 { initialState with lastFistState := true } (noHandFrame 33) (Or.inl rfl)⟩

/-- C13: debounce buffer range.  In every state reached from the initial
state by a run of the handler, `drawBuffer` (an integer) is within 0..5; and
from such a state a well-formed frame sets it to 5 when it is a Pointing
frame, takes exactly one from it if and only if it is a non-Pointing hand
frame processed with a session open and `drawBuffer > 0`, and otherwise
leaves it as it was. -/
theorem drawBuffer_in_range (fs : List Frame) (s : State) (cs : List (List Call))
    (hrun : run initialState fs = some (s, cs)) :
    (0 ≤ s.drawBuffer ∧ s.drawBuffer ≤ 5) ∧
      ∀ f : Frame, f.wellFormed →
        ∃ s1 c, onResults s f = some (s1, c) ∧
          (f.handGesture = some Gesture.Pointing → s1.drawBuffer = 5) ∧
          (s1.drawBuffer = s.drawBuffer - 1 ↔
            f.nonPointingHand ∧ s.isDrawing = true ∧ 0 < s.drawBuffer) ∧
          (f.handGesture ≠ some Gesture.Pointing →
            ¬ (f.nonPointingHand ∧ s.isDrawing = true ∧ 0 < s.drawBuffer) →
            s1.drawBuffer = s.drawBuffer) := by
  have h5 : DRAW_BUFFER_MAX = 5 := rfl
  have hs : 0 ≤ s.drawBuffer ∧ s.drawBuffer ≤ 5 :=
    run_drawBuffer_range fs initialState s cs hrun ⟨le_refl _, by decide⟩
  refine ⟨hs, fun f hf => ?_⟩
  rcases hf with hn | ⟨g, hg⟩
  · have hnp : ¬ f.nonPointingHand := by
      rintro ⟨g, hg, -⟩
      rcases hn with hn | hn <;> simp [Frame.handGesture, hn] at hg
    have hnh : f.handGesture ≠ some Gesture.Pointing := by
      intro hg
      rcases hn with hn | hn <;> simp [Frame.handGesture, hn] at hg
    refine ⟨(noHandBranch s).1, (noHandBranch s).2, onResults_noHand s f hn,
      fun h => absurd h hnh, ⟨fun h => ?_, fun h => absurd h.1 hnp⟩, fun _ _ => rfl⟩
    have : (noHandBranch s).1.drawBuffer = s.drawBuffer := rfl
    omega
  · obtain ⟨tip, -, hstep⟩ := onResults_hand f g hg
    have hb := handBranch_drawBuffer s g tip f
    refine ⟨(handBranch s g tip f).1, (handBranch s g tip f).2, hstep s, ?_, ?_, ?_⟩
    · intro hp
      rw [hg] at hp
      cases hp
      rw [hb, if_pos rfl, h5]
    · by_cases hgp : g = Gesture.Pointing
      · rw [hb, if_pos hgp, h5]
        constructor
        · intro h; omega
        · rintro ⟨⟨g1, hg1, hne⟩, -, -⟩
          rw [hg] at hg1; cases hg1; exact absurd hgp hne
      · rw [hb, if_neg hgp]
        constructor
        · intro h
          by_cases hc : s.isDrawing = true ∧ 0 < s.drawBuffer
          · exact ⟨⟨g, hg, hgp⟩, hc⟩
          · rw [if_neg hc] at h; omega
        · rintro ⟨-, hc⟩
          rw [if_pos hc]
    · intro hnp hc
      have hgp : g ≠ Gesture.Pointing := fun h => hnp (by rw [hg, h])
      rw [hb, if_neg hgp, if_neg (fun h => hc ⟨⟨g, hg, hgp⟩, h⟩)]

theorem drawBuffer_in_range_witness :
    ∃ s cs, run initialState scenario = some (s, cs) ∧ 0 ≤ s.drawBuffer ∧ s.drawBuffer ≤ 5 :=
  match run_wellFormed scenario initialState scenario_wellFormed with
  | ⟨s, cs, h⟩ => ⟨s, cs, h, (drawBuffer_in_range scenario s cs h).1⟩

/-- C14: resume.  On a Pointing hand frame processed with a session open,
whatever the buffer, exactly one call is made: a segment from the last point
to the new blended point `ema raw smoothed`; the buffer is refilled to 5, the
session start time is unchanged, the session stays open, and the smoothed
point is the blended one (not reseeded), which becomes the last point. -/
theorem resume_draws_one_segment (s : State) (f : Frame) (hd : s.isDrawing = true)
    (hf : f.handGesture = some Gesture.Pointing) :
    ∃ tip s1, f.indexTip = some tip ∧
      onResults s f = some (s1, [Call.segment s.lastX s.lastY
        (ema ((1 - tip.x) * f.width) s.smoothedX) (ema (tip.y * f.height) s.smoothedY)]) ∧
      s1.smoothedX = ema ((1 - tip.x) * f.width) s.smoothedX ∧
      s1.smoothedY = ema (tip.y * f.height) s.smoothedY ∧
      s1.lastX = s1.smoothedX ∧ s1.lastY = s1.smoothedY ∧
      s1.drawBuffer = 5 ∧ s1.drawStartTime = s.drawStartTime ∧ s1.isDrawing = true := by
  obtain ⟨tip, htip, hstep⟩ := onResults_hand f _ hf
  have hb : handBranch s Gesture.Pointing tip f
      = ({ s with drawBuffer := DRAW_BUFFER_MAX,
                  smoothedX := ema ((1 - tip.x) * f.width) s.smoothedX,
                  smoothedY := ema (tip.y * f.height) s.smoothedY,
                  lastX := ema ((1 - tip.x) * f.width) s.smoothedX,
                  lastY := ema (tip.y * f.height) s.smoothedY, lastFistState := false },
          [Call.segment s.lastX s.lastY (ema ((1 - tip.x) * f.width) s.smoothedX)
            (ema (tip.y * f.height) s.smoothedY)]) := by
    rw [handBranch_pointing, pointingBranch_open _ _ _ _ (by simpa [smooth] using hd)]
    simp [smooth]
  refine ⟨tip, (handBranch s Gesture.Pointing tip f).1, htip, ?_, ?_⟩
  · rw [hstep s, hb]
  · rw [hb]; exact ⟨rfl, rfl, rfl, rfl, rfl, rfl, hd⟩

theorem resume_draws_one_segment_witness :
    ∃ tip s1, (handFrame pointingPose 40).indexTip = some tip ∧
      onResults { initialState with isDrawing := true, lastX := 3, lastY := 4 }
          (handFrame pointingPose 40)
        = some (s1, [Call.segment 3 4 (ema ((1 - tip.x) * 640) 0) (ema (tip.y * 480) 0)]) ∧
      s1.smoothedX = ema ((1 - tip.x) * 640) 0 ∧ s1.smoothedY = ema (tip.y * 480) 0 ∧
      s1.lastX = s1.smoothedX ∧ s1.lastY = s1.smoothedY ∧
      s1.drawBuffer = 5 ∧ s1.drawStartTime = 0 ∧ s1.isDrawing = true :=
  resume_draws_one_segment { initialState with isDrawing := true, lastX := 3, lastY := 4 }
    (handFrame pointingPose 40) rfl (handGesture_pointingPose 40)

/-- C15: freeze on NoHand.  A frame without a hand leaves the smoothed point,
the last point, the buffer and the session start time as they were, and
draws no segment. -/
theorem noHand_freezes (s : State) (f : Frame) (hf : f.noHand) :
    ∃ s1 c, onResults s f = some (s1, c) ∧
      s1.smoothedX = s.smoothedX ∧ s1.smoothedY = s.smoothedY ∧
      s1.lastX = s.lastX ∧ s1.lastY = s.lastY ∧
      s1.drawBuffer = s.drawBuffer ∧ s1.drawStartTime = s.drawStartTime ∧
      segmentCount c = 0 := by
  refine ⟨(noHandBranch s).1, (noHandBranch s).2, onResults_noHand s f hf,
    rfl, rfl, rfl, rfl, rfl, rfl, ?_⟩
  cases hd : s.isDrawing <;> simp [noHandBranch, segmentCount, hd]

theorem noHand_freezes_witness :
    ∃ s1 c, onResults { initialState with isDrawing := true, smoothedX := 7, drawBuffer := 2 }
        (noHandFrame 165) = some (s1, c) ∧
      s1.smoothedX = 7 ∧ s1.smoothedY = 0 ∧ s1.lastX = 0 ∧ s1.lastY = 0 ∧
      s1.drawBuffer = 2 ∧ s1.drawStartTime = 0 ∧ segmentCount c = 0 :=
  noHand_freezes { initialState with isDrawing := true, smoothedX := 7, drawBuffer := 2 }
    (noHandFrame 165) (Or.inl rfl)

/-- C19: connected polyline.  Over every sequence of well-formed frames from
the initial state the handler returns on every frame and every segment it
draws starts at the pen of the current session: the end point of the
previous segment of that session or, for its first segment, the raw point
the session was seeded with.  No segment is drawn while there is no pen, so
none starts from a point of an earlier session or from the initial (0, 0). -/
theorem segments_connected (fs : List Frame) (hfs : ∀ f ∈ fs, f.wellFormed) :
    connectedFrom none initialState fs = true :=
  connectedFrom_penOf fs initialState hfs

theorem segments_connected_witness : connectedFrom none initialState scenario = true :=
  segments_connected scenario scenario_wellFormed

/-- C20: idle reseed.  For a hand frame of any gesture: processed with no
session open it leaves the smoothed point at the raw canvas point of the
index tip exactly; so processed right after a frame without a hand, from any
state, it does too; while, when it is not Pointing and ends a session by an
empty buffer, it leaves the smoothed point blended (`ema raw smoothed`),
which differs from the raw point whenever the previous point did. -/
theorem idle_hand_frame_reseeds (f : Frame) (g : Gesture) (hf : f.handGesture = some g) :
    ∃ tip, f.indexTip = some tip ∧
      (∀ s : State, s.isDrawing = false →
        ∃ s1 c, onResults s f = some (s1, c) ∧
          s1.smoothedX = (1 - tip.x) * f.width ∧ s1.smoothedY = tip.y * f.height) ∧
      (∀ (s0 : State) (n : Frame), n.noHand →
        ∃ s1 c1 s2 c2, onResults s0 n = some (s1, c1) ∧ onResults s1 f = some (s2, c2) ∧
          s2.smoothedX = (1 - tip.x) * f.width ∧ s2.smoothedY = tip.y * f.height) ∧
      (∀ s : State, g ≠ Gesture.Pointing → s.isDrawing = true → s.drawBuffer = 0 →
        ∃ s1 c, onResults s f = some (s1, c) ∧ s1.isDrawing = false ∧
          s1.smoothedX = ema ((1 - tip.x) * f.width) s.smoothedX ∧
          s1.smoothedY = ema (tip.y * f.height) s.smoothedY ∧
          (s.smoothedX ≠ (1 - tip.x) * f.width → s1.smoothedX ≠ (1 - tip.x) * f.width) ∧
          (s.smoothedY ≠ tip.y * f.height → s1.smoothedY ≠ tip.y * f.height)) := by
  obtain ⟨tip, htip, hstep⟩ := onResults_hand f g hf
  refine ⟨tip, htip, fun s hd => ?_, fun s0 n hn => ?_, fun s hg hd hb => ?_⟩
  · obtain ⟨hx, hy⟩ := handBranch_idle_smoothed s g tip f hd
    exact ⟨(handBranch s g tip f).1, (handBranch s g tip f).2, hstep s, hx, hy⟩
  · obtain ⟨hx, hy⟩ := handBranch_idle_smoothed (noHandBranch s0).1 g tip f rfl
    exact ⟨(noHandBranch s0).1, (noHandBranch s0).2, (handBranch (noHandBranch s0).1 g tip f).1,
      (handBranch (noHandBranch s0).1 g tip f).2, onResults_noHand s0 n hn, hstep _, hx, hy⟩
  · obtain ⟨hx, hy⟩ := handBranch_other_end_smoothed s g tip f hg hd (by rw [hb])
    refine ⟨(handBranch s g tip f).1, (handBranch s g tip f).2, hstep s,
      handBranch_other_end s g tip f hg hd (by rw [hb]), hx, hy, fun h => ?_, fun h => ?_⟩
    · rw [hx]; exact fun h1 => h ((ema_eq_iff _ _).mp h1)
    · rw [hy]; exact fun h1 => h ((ema_eq_iff _ _).mp h1)

theorem idle_hand_frame_reseeds_witness :
    ∃ tip, (handFrame unknownPose 10).indexTip = some tip ∧
      (∃ s1 c, onResults { initialState with smoothedX := 9, smoothedY := 9 }
          (handFrame unknownPose 10) = some (s1, c) ∧
        s1.smoothedX = (1 - tip.x) * 640 ∧ s1.smoothedY = tip.y * 480) ∧
      (∃ s1 c, onResults { initialState with isDrawing := true } (handFrame unknownPose 10)
          = some (s1, c) ∧ s1.isDrawing = false ∧
        s1.smoothedX = ema ((1 - tip.x) * 640) 0 ∧ s1.smoothedY = ema (tip.y * 480) 0) :=
  match idle_hand_frame_reseeds (handFrame unknownPose 10) Gesture.Unknown
      (handGesture_unknownPose 10) with
  | ⟨tip, htip, h1, _, h3⟩ =>
    ⟨tip, htip, h1 { initialState with smoothedX := 9, smoothedY := 9 } rfl,
      match h3 { initialState with isDrawing := true } (by decide) rfl rfl with
      | ⟨s1, c, hr, hd, hx, hy, _, _⟩ => ⟨s1, c, hr, hd, hx, hy⟩⟩

/-! ## Further properties of the classifier -/

/-- C16: unused geometry.  Two 21-landmark frames that agree on the y of
landmarks 5, 6, 8, 9, 10, 12, 13, 14, 16, 17, 18 and 20 get the same label
from `recognizeGesture` (and do get one): the x coordinates, the thumb, the
wrist and the values `dist` and `handScale` computed from them have no
influence. -/
theorem recognizeGesture_reads_twelve_ys (lm1 lm2 : List Landmark)
    (h1 : lm1.length = 21) (h2 : lm2.length = 21)
    (e5 : lm1[5].y = lm2[5].y) (e6 : lm1[6].y = lm2[6].y) (e8 : lm1[8].y = lm2[8].y)
    (e9 : lm1[9].y = lm2[9].y) (e10 : lm1[10].y = lm2[10].y) (e12 : lm1[12].y = lm2[12].y)
    (e13 : lm1[13].y = lm2[13].y) (e14 : lm1[14].y = lm2[14].y)
    (e16 : lm1[16].y = lm2[16].y) (e17 : lm1[17].y = lm2[17].y)
    (e18 : lm1[18].y = lm2[18].y) (e20 : lm1[20].y = lm2[20].y) :
    recognizeGesture (some lm1) = recognizeGesture (some lm2) ∧
      ∃ g, recognizeGesture (some lm1) = some g := by
  rw [recognizeGesture_eq_classifySpec lm1 h1, recognizeGesture_eq_classifySpec lm2 h2]
  refine ⟨?_, _, rfl⟩
  simp only [classifySpec, PointingCond, FistCond, OpenPalmCond, extendedFingers, isExtended,
    e5, e6, e8, e9, e10, e12, e13, e14, e16, e17, e18, e20]

theorem recognizeGesture_reads_twelve_ys_witness :
    (recognizeGesture (some pointingPose) = recognizeGesture (some pointingPoseMoved) ∧
      ∃ g, recognizeGesture (some pointingPose) = some g) ∧
      unusedGeometry pointingPose ≠ unusedGeometry pointingPoseMoved :=
  ⟨recognizeGesture_reads_twelve_ys pointingPose pointingPoseMoved rfl rfl rfl rfl rfl rfl rfl rfl
    rfl rfl rfl rfl rfl rfl, by
    norm_num [unusedGeometry, pointingPose, pointingPoseMoved, pose, lmY, sqDist]⟩

/-- C18: branch order is immaterial.  On every 21-landmark frame the tests
of the Pointing, Fist and Open Palm branches are pairwise exclusive (the
first forces `extendedCount = 1`, the second 0, the third 4), so taking the
first match of the three tests in any order gives the label
`recognizeGesture` returns. -/
theorem branch_order_immaterial (lm : List Landmark) (h : lm.length = 21) :
    ∃ v isPointing, fingerLoop lm = some v ∧ pointingCheck lm = some isPointing ∧
      branchTests lm = some [(isPointing, Gesture.Pointing),
        (v.fistCandidate && v.extendedCount == 0, Gesture.Fist),
        (v.extendedCount == 4, Gesture.OpenPalm)] ∧
      (isPointing = true → v.extendedCount = 1) ∧
      ((v.fistCandidate && v.extendedCount == 0) = true → v.extendedCount = 0) ∧
      ((v.extendedCount == 4) = true → v.extendedCount = 4) ∧
      ¬ (isPointing = true ∧ (v.fistCandidate && v.extendedCount == 0) = true) ∧
      ¬ (isPointing = true ∧ (v.extendedCount == 4) = true) ∧
      ¬ ((v.fistCandidate && v.extendedCount == 0) = true ∧ (v.extendedCount == 4) = true) ∧
      ∀ tests : List (Bool × Gesture),
        tests.Perm [(isPointing, Gesture.Pointing),
          (v.fistCandidate && v.extendedCount == 0, Gesture.Fist),
          (v.extendedCount == 4, Gesture.OpenPalm)] →
        recognizeGesture (some lm) = some (firstMatch tests) := by
  obtain ⟨a0, a1, a2, a3, a4, a5, a6, a7, a8, a9, a10, a11, a12, a13, a14, a15, a16,
    a17, a18, a19, a20, rfl⟩ := list_length_21 lm h
  obtain ⟨v, hv⟩ : ∃ v, fingerLoop [a0, a1, a2, a3, a4, a5, a6, a7, a8, a9, a10, a11, a12,
      a13, a14, a15, a16, a17, a18, a19, a20] = some v :=
    ⟨_, fingerLoop_eq a0 a1 a2 a3 a4 a5 a6 a7 a8 a9 a10 a11 a12 a13 a14 a15 a16 a17 a18 a19 a20⟩
  obtain ⟨p, hp⟩ : ∃ p, pointingCheck [a0, a1, a2, a3, a4, a5, a6, a7, a8, a9, a10, a11, a12,
      a13, a14, a15, a16, a17, a18, a19, a20] = some p :=
    ⟨_, pointingCheck_eq a0 a1 a2 a3 a4 a5 a6 a7 a8 a9 a10 a11 a12 a13 a14 a15 a16 a17 a18 a19
      a20⟩
  obtain ⟨hb, hrec⟩ := branchTests_eq a0 a1 a2 a3 a4 a5 a6 a7 a8 a9 a10 a11 a12 a13 a14 a15
    a16 a17 a18 a19 a20 v p hv hp
  have hone : p = true → v.extendedCount = 1 := pointing_forces_one _ h v p hv hp
  have hzero : (v.fistCandidate && v.extendedCount == 0) = true → v.extendedCount = 0 := by
    intro hbn
    simp only [Bool.and_eq_true, beq_iff_eq] at hbn
    exact hbn.2
  have hfour : (v.extendedCount == 4) = true → v.extendedCount = 4 := fun hn => by
    simpa using hn
  refine ⟨v, p, hv, hp, hb, hone, hzero, hfour, ?_, ?_, ?_, ?_⟩
  · rintro ⟨h1, h2⟩
    have e1 := hone h1; have e2 := hzero h2; omega
  · rintro ⟨h1, h2⟩
    have e1 := hone h1; have e2 := hfour h2; omega
  · rintro ⟨h1, h2⟩
    have e1 := hzero h1; have e2 := hfour h2; omega
  · intro tests hperm
    rw [hrec]
    congr 1
    symm
    refine firstMatch_perm tests _ hperm ?_
    intro t1 ht1 t2 ht2 hb1 hb2
    simp only [List.mem_cons, List.mem_singleton, List.not_mem_nil, or_false] at ht1 ht2
    rcases ht1 with rfl | rfl | rfl <;> rcases ht2 with rfl | rfl | rfl <;>
      first
      | rfl
      | (exfalso
         first
         | (have e1 := hone hb1; have e2 := hzero hb2; omega)
         | (have e1 := hone hb1; have e2 := hfour hb2; omega)
         | (have e1 := hzero hb1; have e2 := hone hb2; omega)
         | (have e1 := hzero hb1; have e2 := hfour hb2; omega)
         | (have e1 := hfour hb1; have e2 := hone hb2; omega)
         | (have e1 := hfour hb1; have e2 := hzero hb2; omega))

theorem branch_order_immaterial_witness :
    ∃ v isPointing, fingerLoop pointingPose = some v ∧
      pointingCheck pointingPose = some isPointing ∧
      recognizeGesture (some pointingPose) = some (firstMatch
        [(v.extendedCount == 4, Gesture.OpenPalm),
         (v.fistCandidate && v.extendedCount == 0, Gesture.Fist),
         (isPointing, Gesture.Pointing)]) :=
  match branch_order_immaterial pointingPose rfl with
  | ⟨v, p, hv, hp, _, _, _, _, _, _, _, hperm⟩ =>
    ⟨v, p, hv, hp, hperm _ ((List.Perm.swap _ _ _).trans
      ((List.Perm.cons _ (List.Perm.swap _ _ _)).trans (List.Perm.swap _ _ _)))⟩

/-! ## Properties of `saveSnapshot` -/

/-- C17: bounded gallery.  With `items` the gallery once the placeholder is
removed, of length at most 10: `saveSnapshot` yields the new snapshot
followed by the previous items in their order, cut to 10; so the new one is
first, what follows is a prefix of the previous items, the length is at most
10, nothing is evicted below 10 previous items, and with 10 previous items
exactly the last (oldest) one is evicted. -/
theorem saveSnapshot_bounded (gallery : List GalleryChild) (dataURL : String)
    (hlen : (gallery.erase GalleryChild.emptyMsg).length ≤ 10) :
    saveSnapshot gallery dataURL
        = (GalleryChild.snapshotItem dataURL :: gallery.erase GalleryChild.emptyMsg).take 10 ∧
      (saveSnapshot gallery dataURL).head? = some (GalleryChild.snapshotItem dataURL) ∧
      (saveSnapshot gallery dataURL).tail <+: gallery.erase GalleryChild.emptyMsg ∧
      (saveSnapshot gallery dataURL).length ≤ 10 ∧
      ((gallery.erase GalleryChild.emptyMsg).length < 10 →
        saveSnapshot gallery dataURL
          = GalleryChild.snapshotItem dataURL :: gallery.erase GalleryChild.emptyMsg) ∧
      ((gallery.erase GalleryChild.emptyMsg).length = 10 →
        saveSnapshot gallery dataURL
          = GalleryChild.snapshotItem dataURL
              :: (gallery.erase GalleryChild.emptyMsg).dropLast) := by
  have key : saveSnapshot gallery dataURL
      = (GalleryChild.snapshotItem dataURL :: gallery.erase GalleryChild.emptyMsg).take 10 := by
    unfold saveSnapshot
    cases hitems : gallery.erase GalleryChild.emptyMsg with
    | nil => simp
    | cons c rest =>
      rw [hitems] at hlen
      simp only [List.length_cons] at hlen ⊢
      split_ifs with hgt
      · have h10 : rest.length + 1 = 10 := by omega
        rw [List.dropLast_eq_take]
        simp only [List.length_cons]
        rw [show rest.length + 1 + 1 - 1 = 10 by omega]
      · rw [List.take_of_length_le (by simp only [List.length_cons]; omega)]
  refine ⟨key, ?_, ?_, ?_, ?_, ?_⟩
  · rw [key]; rfl
  · rw [key]
    simp only [List.take_succ_cons, List.tail_cons]
    exact List.take_prefix _ _
  · rw [key]
    simp only [List.length_take]
    omega
  · intro hlt
    rw [key, List.take_of_length_le (by simp only [List.length_cons]; omega)]
  · intro heq
    rw [key, List.dropLast_eq_take, heq]
    rfl

theorem saveSnapshot_bounded_witness :
    saveSnapshot [GalleryChild.emptyMsg] "data:a" = [GalleryChild.snapshotItem "data:a"] ∧
      saveSnapshot
          [GalleryChild.snapshotItem "9", GalleryChild.snapshotItem "8",
           GalleryChild.snapshotItem "7", GalleryChild.snapshotItem "6",
           GalleryChild.snapshotItem "5", GalleryChild.snapshotItem "4",
           GalleryChild.snapshotItem "3", GalleryChild.snapshotItem "2",
           GalleryChild.snapshotItem "1", GalleryChild.snapshotItem "0"] "10"
        = [GalleryChild.snapshotItem "10", GalleryChild.snapshotItem "9",
           GalleryChild.snapshotItem "8", GalleryChild.snapshotItem "7",
           GalleryChild.snapshotItem "6", GalleryChild.snapshotItem "5",
           GalleryChild.snapshotItem "4", GalleryChild.snapshotItem "3",
           GalleryChild.snapshotItem "2", GalleryChild.snapshotItem "1"] :=
  ⟨(saveSnapshot_bounded [GalleryChild.emptyMsg] "data:a" (by decide)).1,
    (saveSnapshot_bounded
      [GalleryChild.snapshotItem "9", GalleryChild.snapshotItem "8",
       GalleryChild.snapshotItem "7", GalleryChild.snapshotItem "6",
       GalleryChild.snapshotItem "5", GalleryChild.snapshotItem "4",
       GalleryChild.snapshotItem "3", GalleryChild.snapshotItem "2",
       GalleryChild.snapshotItem "1", GalleryChild.snapshotItem "0"] "10" (by decide)).1⟩

end AirScribe
